import Mathlib

/-!
Verification development for the BZ-BrokerCursor import pipeline
(`core/scripts/import/import_reports.py`, `core/utils/file_manager.py`,
`core/parsers/__init__.py`, `core/database/operations.py`).

The Python code is shallowly embedded: pure helpers become Lean functions,
the per-file pipeline `EnhancedReportImporter.process_file_enhanced` becomes
a function from an environment (broker pattern table, hash function, parser
behaviour, database/filesystem availability) and a database state to a
result record carrying the ordered trace of external actions (reads, DB
queries, DB writes, file renames, audit-log lines) together with the
resulting set of persisted reports.
-/

namespace BZ

/-- Python `pat in hay` on lists of characters: `pat` occurs contiguously in `hay`. -/
def hasSubstr (hay pat : List Char) : Bool :=
  match hay with
  | [] => pat.isEmpty
  | _ :: t => pat.isPrefixOf hay || hasSubstr t pat

/-- Python `pat in hay` for strings (substring containment). -/
def strContains (hay pat : String) : Bool :=
  hasSubstr hay.data pat.data

/-- Python `s.lower()` (on the ASCII range the matched tokens use). -/
def pyLower (s : String) : String :=
  ⟨s.data.map Char.toLower⟩

/-- Last index of `'.'` in a character list (Python `name.rfind('.')`), if any. -/
def rfindDot (cs : List Char) : Option Nat :=
  match cs.reverse.findIdx? (· = '.') with
  | some j => some (cs.length - 1 - j)
  | none => none

/-- Python `pathlib.PurePath.suffix` on a file name: the final extension,
`""` when the last dot is leading or trailing or absent. -/
def pySuffix (name : String) : String :=
  let cs := name.data
  match rfindDot cs with
  | some i => if 0 < i && i < cs.length - 1 then ⟨cs.drop i⟩ else ""
  | none => ""

/-- Python `pathlib.PurePath.stem`: the file name minus `pySuffix`. -/
def pyStem (name : String) : String :=
  ⟨name.data.take (name.data.length - (pySuffix name).data.length)⟩

/-- Match of the regex `(\d{4})-(\d{2})` anchored at the head of the list,
returning the two groups. -/
def yyyymmAt (cs : List Char) : Option (String × String) :=
  match cs with
  | a :: b :: c :: d :: dash :: e :: f :: _ =>
    if a.isDigit && b.isDigit && c.isDigit && d.isDigit && dash = '-'
        && e.isDigit && f.isDigit then
      some (⟨[a, b, c, d]⟩, ⟨[e, f]⟩)
    else none
  | _ => none

/-- `re.search(r'(\d{4})-(\d{2})', s)`: leftmost match of a `YYYY-MM` shape. -/
def searchYYYYMM : List Char → Option (String × String)
  | [] => none
  | c :: t =>
    match yyyymmAt (c :: t) with
    | some g => some g
    | none => searchYYYYMM t

/-- Match of the regex `(\d{4})` anchored at the head of the list. -/
def year4At (cs : List Char) : Option String :=
  match cs with
  | a :: b :: c :: d :: _ =>
    if a.isDigit && b.isDigit && c.isDigit && d.isDigit then
      some ⟨[a, b, c, d]⟩
    else none
  | _ => none

/-- `re.search(r'(\d{4})', s)`: leftmost run of four digits. -/
def searchYear : List Char → Option String
  | [] => none
  | c :: t =>
    match year4At (c :: t) with
    | some g => some g
    | none => searchYear t

/-- The month-guess `elif` chain inside `extract_period_from_filename`:
first month token (month number anywhere in the raw name, or Russian month
name in the lowercased name) in source order.  September, January and
February are absent from the source chain. -/
def guessMonth (filename : String) : Option String :=
  let lf := pyLower filename
  if strContains filename "03" || strContains lf "март" then some "03"
  else if strContains filename "04" || strContains lf "апрель" then some "04"
  else if strContains filename "05" || strContains lf "май" then some "05"
  else if strContains filename "06" || strContains lf "июнь" then some "06"
  else if strContains filename "07" || strContains lf "июль" then some "07"
  else if strContains filename "08" || strContains lf "август" then some "08"
  else if strContains filename "10" || strContains lf "октябрь" then some "10"
  else if strContains filename "11" || strContains lf "ноябрь" then some "11"
  else if strContains filename "12" || strContains lf "декабрь" then some "12"
  else none

/-- `extract_period_from_filename` from `import_reports.py`: a `YYYY-MM`
token is preferred; else a four-digit year plus the month-guess chain; else
the string `"unknown"`. -/
def extract_period_from_filename (filename : String) : String :=
  match searchYYYYMM filename.data with
  | some (y, m) => y ++ "-" ++ m
  | none =>
    match searchYear filename.data with
    | some year =>
      match guessMonth filename with
      | some mm => year ++ "-" ++ mm
      | none => "unknown"
    | none => "unknown"

/-- `extract_account_from_filename` from `import_reports.py`. -/
def extract_account_from_filename (filename : String) : Option String :=
  if strContains filename "4000T49" then some "4000T49"
  else if strContains filename "S000T49" then some "S000T49"
  else none

/-- One entry of `brokers_patterns.json`: `config.get('filename_patterns', [])`
and `config.get('html_patterns', [])`. -/
structure BrokerConfig where
  filename_patterns : List String
  html_patterns : List String
deriving DecidableEq, Repr

/-- The broker pattern table (a JSON object iterated in insertion order). -/
abbrev PatternTable := List (String × BrokerConfig)

/-- Tier 1 of `detect_broker_tiered`: first broker (skipping the key
`'unknown'`) one of whose filename patterns, lowercased, is a substring of
the lowercased file name. -/
def tierFilename : PatternTable → String → Option String
  | [], _ => none
  | (broker, config) :: rest, filenameLower =>
    if broker = "unknown" then tierFilename rest filenameLower
    else if config.filename_patterns.any
        (fun pat => strContains filenameLower (pyLower pat)) then some broker
    else tierFilename rest filenameLower

/-- Tier 2 of `detect_broker_tiered`: same scan over `html_patterns`
against the lowercased content. -/
def tierContent : PatternTable → String → Option String
  | [], _ => none
  | (broker, config) :: rest, contentLower =>
    if broker = "unknown" then tierContent rest contentLower
    else if config.html_patterns.any
        (fun pat => strContains contentLower (pyLower pat)) then some broker
    else tierContent rest contentLower

/-- `detect_broker_tiered(file_path, content, patterns)` from
`import_reports.py`. -/
def detect_broker_tiered (fileName content : String) (patterns : PatternTable) : String :=
  let filenameLower := pyLower fileName
  let contentLower := pyLower content
  match tierFilename patterns filenameLower with
  | some broker => broker
  | none =>
    match tierContent patterns contentLower with
    | some broker => broker
    | none => "unknown"

/-- The module-level `PARSER_REGISTRY` of `core/parsers/__init__.py`:
only `'sber'` has a registered parser class. -/
def PARSER_REGISTRY : List String := ["sber"]

/-- `is_broker_supported` from `core/parsers/__init__.py`. -/
def is_broker_supported (broker : String) : Bool :=
  PARSER_REGISTRY.contains broker

/-- A parser's returned dict, restricted to the keys the pipeline reads
(`period_start`, `account_number`); `otherKeys` records the remaining keys
so that Python dict truthiness (`not parsed_data`) is representable. -/
structure ParsedData where
  period_start : Option String
  account_number : Option String
  otherKeys : List String
deriving DecidableEq, Repr

/-- Python truthiness: a dict is falsy iff it has no keys. -/
def ParsedData.isEmptyDict (d : ParsedData) : Bool :=
  d.period_start.isNone && d.account_number.isNone && d.otherKeys.isEmpty

/-- Behaviour of the external parser plugin when the pipeline instantiates
and invokes it (`get_parser(broker)` then `parser.parse(content)`). -/
inductive ParserRun where
  /-- the parser class constructor raised -/
  | instError (msg : String)
  /-- `parse` raised an exception -/
  | raised (msg : String)
  /-- `parse` returned a non-dict (or `None`) value -/
  | nonDict
  /-- `parse` returned a dict -/
  | returned (d : ParsedData)
deriving DecidableEq, Repr

/-- One persisted row of `broker_reports`, restricted to the columns
the import pipeline reads or writes for its decisions. -/
structure Report where
  broker : String
  account : Option String
  period : String
  file_name : String
  file_hash : String
  /-- `processing_status`: `"raw"` after insert, `"parsed"` after
  `update_report_parsed_data`. -/
  processing_status : String
  /-- whether `parsed_data` is non-null on the row -/
  hasParsedData : Bool
deriving DecidableEq, Repr

/-- The `broker_reports` table. -/
abbrev DB := List Report

/-- `get_report_by_hash` (`operations.py`): `SELECT * WHERE file_hash = %s`,
first row if any. -/
def get_report_by_hash (db : DB) (file_hash : String) : Option Report :=
  db.find? (fun r => r.file_hash == file_hash)

/-- `get_report_by_triple` (`operations.py`): `WHERE broker = %s AND
account IS NOT DISTINCT FROM %s AND period = %s` (`NULL` matches `NULL`). -/
def get_report_by_triple (db : DB) (broker : String) (account : Option String)
    (period : String) : Option Report :=
  db.find? (fun r => r.broker == broker && r.account == account && r.period == period)

/-- A candidate file on disk as `FileManager` observes it: its name (final
path component), `stat().st_size`, whether it is a regular file, whether
reading it succeeds (I/O and decode errors), and its decoded text when it
is a text file. -/
structure SrcFile where
  name : String
  sizeBytes : Nat
  isFile : Bool
  readable : Bool
  text : String
deriving DecidableEq, Repr

/-- `FileManager.read_file_content` with the default `max_size_mb = 50`:
`None` past the size limit, the decoded text for `.html`/`.txt`/`.md`, the
name-dependent placeholder string for `.pdf`, `None` otherwise or when the
read raises. -/
def read_file_content (f : SrcFile) : Option String :=
  if !f.readable then none
  else if f.sizeBytes > 50 * 1024 * 1024 then none
  else if pyLower (pySuffix f.name) = ".html" || pyLower (pySuffix f.name) = ".txt"
      || pyLower (pySuffix f.name) = ".md" then some f.text
  else if pyLower (pySuffix f.name) = ".pdf" then
    some ("[PDF_CONTENT_PLACEHOLDER: " ++ f.name ++ "]")
  else none

/-- `FileManager.supported_extensions`. -/
def supported_extensions : List String := [".html", ".txt", ".pdf", ".md"]

/-- `FileManager.is_supported_file`. -/
def is_supported_file (f : SrcFile) : Bool :=
  supported_extensions.contains (pyLower (pySuffix f.name))
    && f.isFile && f.sizeBytes > 0

/-- `FileManager.scan_directory`: the supported files of the directory, in
directory order (`get_file_info` is taken to succeed on an existing file). -/
def scan_directory (dir : List SrcFile) : List SrcFile :=
  dir.filter is_supported_file

/-- Decimal rendering of the collision counter in
`f"{base_name}_{counter}{extension}"`. -/
def natToStr (n : Nat) : String :=
  if n = 0 then "0"
  else ⟨((Nat.digits 10 n).map (fun d => Char.ofNat (48 + d))).reverse⟩

/-- The candidate name `f"{base_name}_{counter}{extension}"` built by
`FileManager.safe_move_file` on a collision. -/
def safeCandidate (base_name extension : String) (counter : Nat) : String :=
  base_name ++ "_" ++ natToStr counter ++ extension

/-- The `while destination.exists()` loop of `FileManager.safe_move_file`,
with explicit fuel (the loop terminates because the directory is finite;
`safe_move_file_dest` supplies enough fuel and the totality theorem shows
it is never exhausted). -/
def safeMoveLoop (dirNames : List String) (base_name extension : String) :
    Nat → Nat → Option String
  | 0, _ => none
  | fuel + 1, counter =>
    let cand := safeCandidate base_name extension counter
    if dirNames.contains cand then
      safeMoveLoop dirNames base_name extension fuel (counter + 1)
    else some cand

/-- The destination name chosen by `FileManager.safe_move_file` given the
names already present in the destination directory: the requested name if
free, else `stem_1`, `stem_2`, ... until a free name is found. -/
def safe_move_file (dirNames : List String) (destName : String) : Option String :=
  if dirNames.contains destName then
    safeMoveLoop dirNames (pyStem destName) (pySuffix destName)
      (dirNames.length + 1) 1
  else some destName

/-- The filesystem effect of the bare `file_path.rename(target_dir /
file_path.name)` calls in `move_to_duplicate_archive` and
`process_file_enhanced`: POSIX `rename(2)` silently replaces an existing
entry of the same name.  The directory is a listing of (name, content). -/
def archive_rename (dirContents : List (String × String))
    (fileName fileContent : String) : List (String × String) :=
  (fileName, fileContent) :: dirContents.filter (fun e => !(e.1 == fileName))

/-- The four terminal archive directories of `Config`. -/
inductive ArchiveDir where
  | imported
  | exact_duplicates
  | logical_duplicates
  | unrecognized
deriving DecidableEq, Repr

/-- One externally visible step of the pipeline, in execution order. -/
inductive Action where
  /-- `FileManager.read_file_content(file_path)` -/
  | readContent (file : String)
  /-- `db_ops.get_report_by_hash` (inside `is_exact_duplicate`) -/
  | dbFindByHash (h : String)
  /-- `db_ops.get_report_by_triple` (inside `is_semantic_duplicate`) -/
  | dbFindByTriple (broker : String) (account : Option String) (period : String)
  /-- `is_broker_supported(broker)` / `get_parser(broker)` -/
  | parserLookup (broker : String)
  /-- `parser.parse(content)` -/
  | parseInvoke (broker : String)
  /-- `file_path.rename(...)` into an archive directory (the attempt) -/
  | renameInto (file : String) (dir : ArchiveDir)
  /-- `db_ops.log_import_file(status=...)` -/
  | dbLogImportFile (status : String) (file : String)
  /-- `file_manager.log_import_event(event_type=...)` -/
  | fileLogEvent (eventType : String) (file : String)
  /-- committed `db_ops.insert_report` -/
  | dbInsert (r : Report)
  /-- `db_ops.insert_report` returned `None` -/
  | dbInsertFailed (file : String)
  /-- `db_ops.update_report_parsed_data(report_id, ..., status)` -/
  | dbUpdateParsedData (status : String)
deriving DecidableEq, Repr

/-- The file a (logged, moved or inserted) action is about, if any. -/
def Action.file? : Action → Option String
  | .readContent n => some n
  | .dbFindByHash _ => none
  | .dbFindByTriple _ _ _ => none
  | .parserLookup _ => none
  | .parseInvoke _ => none
  | .renameInto n _ => some n
  | .dbLogImportFile _ n => some n
  | .fileLogEvent _ n => some n
  | .dbInsert r => some r.file_name
  | .dbInsertFailed n => some n
  | .dbUpdateParsedData _ => none

/-- Whether the action is a parser-registry lookup or a parser invocation. -/
def Action.isParserStep : Action → Bool
  | .parserLookup _ => true
  | .parseInvoke _ => true
  | _ => false

/-- Whether the action inserts a report row (successfully or not). -/
def Action.isInsertStep : Action → Bool
  | .dbInsert _ => true
  | .dbInsertFailed _ => true
  | _ => false

/-- The pipeline's external collaborators and failure switches:
the loaded broker pattern table, `hashlib.sha256(...).hexdigest()` as an
opaque function of the content, the behaviour of the broker parser plugin,
and whether DB inserts and filesystem renames succeed during the run. -/
structure Env where
  patterns : PatternTable
  hashFn : String → String
  parserRun : String → String → ParserRun
  insertOk : Bool
  renameOk : Bool

/-- `EnhancedReportImporter.is_exact_duplicate`. -/
def is_exact_duplicate (db : DB) (file_hash : String) : Bool × Option Report :=
  let existing := get_report_by_hash db file_hash
  (existing.isSome, existing)

/-- `EnhancedReportImporter.is_semantic_duplicate`, returning also the
`get_report_by_triple` query it performs: with parsed data carrying
`period_start`, the triple is (`broker`, parsed `account_number` falling
back to the filename account, `period_start[:7]`); otherwise the
filename-derived triple. -/
def is_semantic_duplicate (db : DB) (broker : String) (account : Option String)
    (period : String) (parsed_data : Option ParsedData) :
    Bool × Option Report × Action :=
  match parsed_data with
  | some d =>
    match d.period_start with
    | some ps =>
      let parsed_period := ps.take 7
      let parsed_account := d.account_number.orElse (fun _ => account)
      let existing := get_report_by_triple db broker parsed_account parsed_period
      (existing.isSome, existing, .dbFindByTriple broker parsed_account parsed_period)
    | none =>
      let existing := get_report_by_triple db broker account period
      (existing.isSome, existing, .dbFindByTriple broker account period)
  | none =>
    let existing := get_report_by_triple db broker account period
    (existing.isSome, existing, .dbFindByTriple broker account period)

/-- `EnhancedReportImporter._parse_file_content`: parsed data (if any),
the status string, and the trace of parser steps. -/
def parse_file_content (env : Env) (broker content : String) :
    Option ParsedData × String × List Action :=
  if !is_broker_supported broker then
    (none, "no_parser_found", [.parserLookup broker])
  else
    match env.parserRun broker content with
    | .instError msg =>
      (none, "parser_instantiation_failed: " ++ msg, [.parserLookup broker])
    | .raised msg =>
      (none, "parse_failed: " ++ msg, [.parserLookup broker, .parseInvoke broker])
    | .nonDict =>
      (none, "invalid_parser_output", [.parserLookup broker, .parseInvoke broker])
    | .returned d =>
      if d.isEmptyDict then
        (none, "invalid_parser_output", [.parserLookup broker, .parseInvoke broker])
      else (some d, "success", [.parserLookup broker, .parseInvoke broker])

/-- `EnhancedReportImporter.move_to_duplicate_archive`: the rename is
attempted first; a rename failure is caught inside the method, skipping its
own `log_import_event` line and returning `False`. -/
def move_to_duplicate_archive (env : Env) (fileName duplicate_type : String) :
    Bool × List Action :=
  let dir? : Option ArchiveDir :=
    if duplicate_type = "exact_duplicates" then some .exact_duplicates
    else if duplicate_type = "logical_duplicates" then some .logical_duplicates
    else none
  match dir? with
  | none => (false, [])
  | some dir =>
    if env.renameOk then
      (true, [.renameInto fileName dir, .fileLogEvent duplicate_type fileName])
    else (false, [.renameInto fileName dir])

/-- Result of processing one candidate file: the boolean the method
returns, the ordered trace of external actions, and the resulting
`broker_reports` table. -/
structure ProcResult where
  ok : Bool
  trace : List Action
  db : DB
deriving Repr

/-- Step 7 of `process_file_enhanced`: when parsed data carries
`period_start` and its first seven characters disagree with the
filename-derived period, log a `period_mismatch` event and trust the
parsed period and account for everything downstream. -/
def period_mismatch_step (fName : String) (period : String) (account : Option String)
    (parsed_data : Option ParsedData) : String × Option String × List Action :=
  match parsed_data with
  | some d =>
    match d.period_start with
    | some ps =>
      let parsed_period := ps.take 7
      if period ≠ parsed_period then
        (parsed_period, d.account_number.orElse (fun _ => account),
          [.fileLogEvent "period_mismatch" fName])
      else (period, account, [])
    | none => (period, account, [])
  | none => (period, account, [])

/-- `EnhancedReportImporter.process_file_enhanced`: the 4-stage flow.
Stage 1 reads and hashes the content and short-circuits on an exact hash
match; stage 2 derives provisional broker/account/period from the file
name and runs the informational semantic check; stage 3 invokes the broker
parser, reconciling a filename/parsed period mismatch in the parser's
favour, and re-runs the semantic check; stage 4 inserts the row and moves
the file to `imported/`.  Metadata extraction feeding only unmodelled
columns (`client_name`, `report_date`, `metadata`) is omitted. -/
def process_file_enhanced (env : Env) (db : DB) (f : SrcFile) : ProcResult :=
  match read_file_content f with
  | none => ⟨false, [.readContent f.name], db⟩
  | some content =>
    if content = "" then ⟨false, [.readContent f.name], db⟩
    else
      let file_hash := env.hashFn content
      let exact := is_exact_duplicate db file_hash
      let t0 : List Action := [.readContent f.name, .dbFindByHash file_hash]
      if exact.1 then
        let mv := move_to_duplicate_archive env f.name "exact_duplicates"
        ⟨true, t0 ++ mv.2 ++ [.dbLogImportFile "duplicate_detected" f.name,
          .fileLogEvent "exact_duplicate" f.name], db⟩
      else
        let broker := detect_broker_tiered f.name content env.patterns
        let period := extract_period_from_filename f.name
        let account := extract_account_from_filename f.name
        let semFilename := is_semantic_duplicate db broker account period none
        let t1 := t0 ++ [semFilename.2.2]
        let parsed := parse_file_content env broker content
        let parsed_data := parsed.1
        let parse_status := parsed.2.1
        let t2 := t1 ++ parsed.2.2
        if parse_status = "no_parser_found" then
          if env.renameOk then
            ⟨true, t2 ++ [.renameInto f.name .unrecognized,
              .dbLogImportFile "skipped" f.name,
              .fileLogEvent "no_parser_found" f.name], db⟩
          else
            ⟨false, t2 ++ [.renameInto f.name .unrecognized], db⟩
        else
          let step7 := period_mismatch_step f.name period account parsed_data
          let period2 := step7.1
          let account2 := step7.2.1
          let t3 := t2 ++ step7.2.2
          let semParsed := is_semantic_duplicate db broker account2 period2 parsed_data
          let t4 := t3 ++ [semParsed.2.2]
          if semParsed.1 then
            let mv := move_to_duplicate_archive env f.name "logical_duplicates"
            ⟨true, t4 ++ mv.2 ++ [.dbLogImportFile "collision_mismatch" f.name,
              .fileLogEvent "semantic_duplicate" f.name], db⟩
          else
            if env.insertOk then
              let row : Report := {
                broker := broker, account := account2, period := period2,
                file_name := f.name, file_hash := file_hash,
                processing_status := if parsed_data.isSome then "parsed" else "raw",
                hasParsedData := parsed_data.isSome }
              ⟨env.renameOk,
                t4 ++ [.dbInsert row]
                  ++ (if parsed_data.isSome then [.dbUpdateParsedData "parsed"] else [])
                  ++ [.dbLogImportFile "success" f.name,
                    .fileLogEvent "imported" f.name,
                    .renameInto f.name .imported],
                db ++ [row]⟩
            else
              ⟨false, t4 ++ [.dbInsertFailed f.name,
                .dbLogImportFile "failure" f.name], db⟩

/-- The per-file loop of `EnhancedReportImporter.import_reports` over an
already-scanned file list: threads the database, concatenates traces. -/
def run_files (env : Env) : DB → List SrcFile → DB × List Action
  | db, [] => (db, [])
  | db, f :: fs =>
    let r := process_file_enhanced env db f
    let rest := run_files env r.db fs
    (rest.1, r.trace ++ rest.2)

/-- A full import run over an inbox directory (no broker filter, no
dry-run): scan, then process each discovered file in order. -/
def run_import (env : Env) (db : DB) (inbox : List SrcFile) : DB × List Action :=
  run_files env db (scan_directory inbox)

/-- An archival rename into `imported/`. -/
def isImportedMove : Action → Bool
  | .renameInto _ .imported => true
  | _ => false

/-- A committed report insert. -/
def isDbInsert : Action → Bool
  | .dbInsert _ => true
  | _ => false

/-- Scanner for the claimed ordering "move only after a committed DB
mutation": `true` iff every archival rename in the trace is preceded by an
earlier committed DB write (report insert or import-log write).  `seen`
records whether a DB write has occurred yet. -/
def movesAfterDbWrite (seen : Bool) : List Action → Bool
  | [] => true
  | a :: t =>
    match a with
    | .renameInto _ _ => seen && movesAfterDbWrite seen t
    | .dbInsert _ => movesAfterDbWrite true t
    | .dbLogImportFile _ _ => movesAfterDbWrite true t
    | _ => movesAfterDbWrite seen t

/-- Scanner for the ordering that does hold of the code's imported path:
`true` iff every rename into `imported/` is preceded by an earlier
committed report insert. -/
def importMovesAfterInsert (seen : Bool) : List Action → Bool
  | [] => true
  | a :: t =>
    match a with
    | .renameInto _ .imported => seen && importMovesAfterInsert seen t
    | .dbInsert _ => importMovesAfterInsert true t
    | _ => importMovesAfterInsert seen t

/-- `true` iff some archival rename occurs strictly before the first DB
write (insert attempt or import-log write) of the trace. -/
def renameBeforeFirstDbWrite : List Action → Bool
  | [] => false
  | a :: t =>
    match a with
    | .renameInto _ _ => true
    | .dbInsert _ => false
    | .dbInsertFailed _ => false
    | .dbLogImportFile _ _ => false
    | _ => renameBeforeFirstDbWrite t

/-! ## General lemmas about the pipeline -/

/-- Once an insert has been seen, the imported-move scanner accepts any
remaining trace. -/
theorem importMovesAfterInsert_true (l : List Action) :
    importMovesAfterInsert true l = true := by
  induction l with
  | nil => rfl
  | cons a t ih =>
    cases a <;> simp [importMovesAfterInsert, ih]
    case renameInto dir => cases dir <;> simp [ih]

/-- Scanner step over an action that is neither an imported move nor a
committed insert. -/
theorem importMovesAfterInsert_step (a : Action) (t : List Action)
    (h1 : isImportedMove a = false) (h2 : isDbInsert a = false) :
    importMovesAfterInsert false (a :: t) = importMovesAfterInsert false t := by
  cases a <;> simp [importMovesAfterInsert] at h1 h2 ⊢
  case renameInto dir =>
    cases dir <;> simp [isImportedMove] at h1 ⊢
  case dbInsert => exact absurd h2 (by simp [isDbInsert])

/-- Scanner over an append whose first part is neutral. -/
theorem importMovesAfterInsert_append (l1 l2 : List Action)
    (h : ∀ a ∈ l1, isImportedMove a = false ∧ isDbInsert a = false) :
    importMovesAfterInsert false (l1 ++ l2) = importMovesAfterInsert false l2 := by
  induction l1 with
  | nil => rfl
  | cons a t ih =>
    rw [List.cons_append,
      importMovesAfterInsert_step a (t ++ l2) (h a (by simp)).1 (h a (by simp)).2]
    exact ih (fun x hx => h x (by simp [hx]))

/-- A trace without imported-moves passes the imported-move scanner. -/
theorem importMovesAfterInsert_of_noImported (seen : Bool) (l : List Action)
    (h : ∀ a ∈ l, isImportedMove a = false) :
    importMovesAfterInsert seen l = true := by
  induction l generalizing seen with
  | nil => rfl
  | cons a t ih =>
    have ha := h a (by simp)
    cases a <;> simp [importMovesAfterInsert] <;>
      first
        | exact ih _ (fun x hx => h x (by simp [hx]))
        | skip
    case renameInto n dir =>
      cases dir <;> simp [isImportedMove] at ha ⊢ <;>
        exact ih _ (fun x hx => h x (by simp [hx]))

/-- The parser-stage trace consists of parser steps only. -/
theorem parse_trace_shape (env : Env) (b c : String) :
    (parse_file_content env b c).2.2 = [.parserLookup b] ∨
    (parse_file_content env b c).2.2 = [.parserLookup b, .parseInvoke b] := by
  by_cases hs : is_broker_supported b = true
  · cases hr : env.parserRun b c with
    | instError msg => left; simp [parse_file_content, hs, hr]
    | raised msg => right; simp [parse_file_content, hs, hr]
    | nonDict => right; simp [parse_file_content, hs, hr]
    | returned d =>
      right
      by_cases he : d.isEmptyDict = true <;> simp [parse_file_content, hs, hr, he]
  · rw [Bool.not_eq_true] at hs
    left; simp [parse_file_content, hs]

/-- The duplicate-archival trace: a rename into one of the two duplicate
directories, followed by the method's own audit line when it succeeds. -/
theorem mv_trace_shape (env : Env) (n : String) (dt : String)
    (hdt : dt = "exact_duplicates" ∨ dt = "logical_duplicates") :
    ∃ dir, (dir = ArchiveDir.exact_duplicates ∨ dir = ArchiveDir.logical_duplicates) ∧
      ((move_to_duplicate_archive env n dt).2 = [.renameInto n dir] ∨
       (move_to_duplicate_archive env n dt).2 = [.renameInto n dir, .fileLogEvent dt n]) := by
  rcases hdt with rfl | rfl <;>
    [exact ⟨.exact_duplicates, Or.inl rfl, by
      unfold move_to_duplicate_archive
      cases hrn : env.renameOk <;> simp [hrn]⟩;
     exact ⟨.logical_duplicates, Or.inr rfl, by
      unfold move_to_duplicate_archive
      cases hrn : env.renameOk <;> simp [hrn]⟩]

/-- The semantic check's recorded action is always a triple query. -/
theorem sem_action_shape (db : DB) (b : String) (acc : Option String) (p : String)
    (pd : Option ParsedData) :
    ∃ b2 a2 p2, (is_semantic_duplicate db b acc p pd).2.2 = Action.dbFindByTriple b2 a2 p2 := by
  rcases pd with _ | d
  · exact ⟨b, acc, p, rfl⟩
  · rcases hd : d.period_start with _ | ps
    · exact ⟨b, acc, p, by simp [is_semantic_duplicate, hd]⟩
    · exact ⟨b, d.account_number.orElse fun _ => acc, ps.take 7,
        by simp [is_semantic_duplicate, hd]⟩

/-- The period-mismatch step logs at most one event. -/
theorem step7_trace_shape (n p : String) (acc : Option String) (pd : Option ParsedData) :
    (period_mismatch_step n p acc pd).2.2 = [] ∨
    (period_mismatch_step n p acc pd).2.2 = [.fileLogEvent "period_mismatch" n] := by
  rcases pd with _ | d
  · exact Or.inl rfl
  · rcases hd : d.period_start with _ | ps
    · simp [period_mismatch_step, hd]
    · by_cases hp : p ≠ ps.take 7 <;> simp [period_mismatch_step, hd, hp]

/-- Structure of any per-file trace with respect to report inserts and
moves into `imported/`: either the trace contains neither, or the insert
succeeded and the trace is a prefix free of both, then the committed
insert, then the success logs and the move into `imported/`. -/
theorem process_insert_structure (env : Env) (db : DB) (f : SrcFile) :
    (∀ a ∈ (process_file_enhanced env db f).trace,
        isImportedMove a = false ∧ isDbInsert a = false) ∨
    (env.insertOk = true ∧ ∃ l1 row,
      (process_file_enhanced env db f).trace
        = l1 ++ [Action.dbInsert row]
            ++ (if row.hasParsedData then [Action.dbUpdateParsedData "parsed"] else [])
            ++ [Action.dbLogImportFile "success" f.name,
                Action.fileLogEvent "imported" f.name,
                Action.renameInto f.name .imported] ∧
      ∀ a ∈ l1, isImportedMove a = false ∧ isDbInsert a = false) := by
  rcases hread : read_file_content f with _ | content
  · left
    simp [process_file_enhanced, hread, isImportedMove, isDbInsert]
  · by_cases hne0 : content = ""
    · left
      simp [process_file_enhanced, hread, hne0, isImportedMove, isDbInsert]
    · by_cases hex : (get_report_by_hash db (env.hashFn content)).isSome = true
      · left
        rcases mv_trace_shape env f.name "exact_duplicates" (Or.inl rfl) with
          ⟨dir, hdir, hmv | hmv⟩ <;>
        · simp only [process_file_enhanced, hread, if_neg hne0, is_exact_duplicate,
            hex, if_true, hmv]
          intro a ha
          rcases hdir with rfl | rfl <;>
            simp [List.mem_append] at ha <;>
            rcases ha with rfl | rfl | rfl | rfl | rfl | rfl <;>
            simp [isImportedMove, isDbInsert]
      · rw [Bool.not_eq_true] at hex
        obtain ⟨b1, a1, p1, hq1⟩ := sem_action_shape db
          (detect_broker_tiered f.name content env.patterns)
          (extract_account_from_filename f.name) (extract_period_from_filename f.name) none
        obtain ⟨b2, a2, p2, hq2⟩ := sem_action_shape db
          (detect_broker_tiered f.name content env.patterns)
          (period_mismatch_step f.name (extract_period_from_filename f.name)
            (extract_account_from_filename f.name)
            (parse_file_content env (detect_broker_tiered f.name content env.patterns)
              content).1).2.1
          (period_mismatch_step f.name (extract_period_from_filename f.name)
            (extract_account_from_filename f.name)
            (parse_file_content env (detect_broker_tiered f.name content env.patterns)
              content).1).1
          (parse_file_content env (detect_broker_tiered f.name content env.patterns)
            content).1
        by_cases hnp : (parse_file_content env (detect_broker_tiered f.name content
            env.patterns) content).2.1 = "no_parser_found"
        · -- unrecognized branch
          left
          rcases parse_trace_shape env (detect_broker_tiered f.name content env.patterns)
            content with hptr | hptr <;>
          cases hrn : env.renameOk <;>
            simp [process_file_enhanced, hread, hne0, is_exact_duplicate, hex,
              hnp, hptr, hrn, hq1, List.forall_mem_cons,
              List.forall_mem_append, isImportedMove, isDbInsert]
        · -- parse produced something (or failed); semantic re-check then insert
          by_cases hsem : (is_semantic_duplicate db
              (detect_broker_tiered f.name content env.patterns)
              (period_mismatch_step f.name (extract_period_from_filename f.name)
                (extract_account_from_filename f.name)
                (parse_file_content env (detect_broker_tiered f.name content env.patterns)
                  content).1).2.1
              (period_mismatch_step f.name (extract_period_from_filename f.name)
                (extract_account_from_filename f.name)
                (parse_file_content env (detect_broker_tiered f.name content env.patterns)
                  content).1).1
              (parse_file_content env (detect_broker_tiered f.name content env.patterns)
                content).1).1 = true
          · -- semantic duplicate divert
            left
            rcases parse_trace_shape env (detect_broker_tiered f.name content env.patterns)
              content with hptr | hptr <;>
            rcases step7_trace_shape f.name (extract_period_from_filename f.name)
              (extract_account_from_filename f.name)
              (parse_file_content env (detect_broker_tiered f.name content env.patterns)
                content).1 with hev | hev <;>
            rcases mv_trace_shape env f.name "logical_duplicates" (Or.inr rfl) with
              ⟨dir, hdir, hmv | hmv⟩ <;>
            rcases hdir with rfl | rfl <;>
              simp [process_file_enhanced, hread, hne0, is_exact_duplicate, hex,
                hnp, hptr, hev, hsem, hmv, hq1, hq2, List.forall_mem_cons,
                List.forall_mem_append, isImportedMove, isDbInsert]
          · by_cases hins : env.insertOk = true
            · -- successful insert then move to imported/
              right
              rw [Bool.not_eq_true] at hsem
              refine ⟨hins,
                Action.readContent f.name :: Action.dbFindByHash (env.hashFn content) ::
                  Action.dbFindByTriple b1 a1 p1 ::
                  ((parse_file_content env (detect_broker_tiered f.name content
                      env.patterns) content).2.2
                    ++ ((period_mismatch_step f.name (extract_period_from_filename f.name)
                        (extract_account_from_filename f.name)
                        (parse_file_content env (detect_broker_tiered f.name content
                          env.patterns) content).1).2.2
                      ++ [Action.dbFindByTriple b2 a2 p2])),
                ⟨detect_broker_tiered f.name content env.patterns,
                  (period_mismatch_step f.name (extract_period_from_filename f.name)
                    (extract_account_from_filename f.name)
                    (parse_file_content env (detect_broker_tiered f.name content
                      env.patterns) content).1).2.1,
                  (period_mismatch_step f.name (extract_period_from_filename f.name)
                    (extract_account_from_filename f.name)
                    (parse_file_content env (detect_broker_tiered f.name content
                      env.patterns) content).1).1,
                  f.name, env.hashFn content,
                  (if (parse_file_content env (detect_broker_tiered f.name content
                      env.patterns) content).1.isSome then "parsed" else "raw"),
                  (parse_file_content env (detect_broker_tiered f.name content
                    env.patterns) content).1.isSome⟩, ?_, ?_⟩
              · simp only [process_file_enhanced, hread, if_neg hne0, is_exact_duplicate,
                  hex, Bool.false_eq_true, if_false, hnp, hsem, hins, if_true, hq1, hq2,
                  List.append_assoc, List.cons_append, List.nil_append]
              · rcases parse_trace_shape env (detect_broker_tiered f.name content
                    env.patterns) content with hptr | hptr <;>
                rcases step7_trace_shape f.name (extract_period_from_filename f.name)
                  (extract_account_from_filename f.name)
                  (parse_file_content env (detect_broker_tiered f.name content
                    env.patterns) content).1 with hev | hev <;>
                simp [hptr, hev, List.forall_mem_cons, List.forall_mem_append,
                  isImportedMove, isDbInsert]
            · -- insert failed
              left
              rw [Bool.not_eq_true] at hsem hins
              rcases parse_trace_shape env (detect_broker_tiered f.name content
                  env.patterns) content with hptr | hptr <;>
              rcases step7_trace_shape f.name (extract_period_from_filename f.name)
                (extract_account_from_filename f.name)
                (parse_file_content env (detect_broker_tiered f.name content
                  env.patterns) content).1 with hev | hev <;>
              simp [process_file_enhanced, hread, hne0, is_exact_duplicate, hex,
                hnp, hptr, hev, hsem, hins, hq1, hq2, List.forall_mem_cons,
                List.forall_mem_append, isImportedMove, isDbInsert]

/-- When the content hash hits a persisted report, stage 1 short-circuits:
the whole result is the exact-duplicate divert. -/
theorem exactDup_branch (env : Env) (db : DB) (f : SrcFile) (content : String)
    (hread : read_file_content f = some content) (hne : content ≠ "")
    (hhash : (get_report_by_hash db (env.hashFn content)).isSome = true) :
    process_file_enhanced env db f =
      ⟨true, [.readContent f.name, .dbFindByHash (env.hashFn content)]
        ++ (move_to_duplicate_archive env f.name "exact_duplicates").2
        ++ [.dbLogImportFile "duplicate_detected" f.name,
            .fileLogEvent "exact_duplicate" f.name], db⟩ := by
  simp only [process_file_enhanced, hread, if_neg hne, is_exact_duplicate, hhash, if_true]

/-! ## Claim theorems -/

/-- C1: a candidate file whose SHA-256 content hash equals the hash of an
already-persisted report is routed to the `exact_duplicates` archive with
an `exact_duplicate` audit event, before any parser lookup or invocation,
without inserting a report record, leaving the persisted reports
unchanged. -/
theorem C1_exact_duplicate_short_circuit (env : Env) (db : DB) (f : SrcFile)
    (content : String)
    (hread : read_file_content f = some content) (hne : content ≠ "")
    (hhash : (get_report_by_hash db (env.hashFn content)).isSome = true) :
    (process_file_enhanced env db f).db = db ∧
    Action.renameInto f.name .exact_duplicates ∈ (process_file_enhanced env db f).trace ∧
    Action.fileLogEvent "exact_duplicate" f.name ∈ (process_file_enhanced env db f).trace ∧
    ((process_file_enhanced env db f).trace.all
      (fun a => !a.isParserStep && !a.isInsertStep)) = true := by
  have h := exactDup_branch env db f content hread hne hhash
  rw [h]
  refine ⟨rfl, ?_, ?_, ?_⟩ <;>
    cases hrn : env.renameOk <;>
      simp [move_to_duplicate_archive, hrn, Action.isParserStep, Action.isInsertStep]

/-- Witness for C1: a second file with the same content hash `"HB"` as the
persisted report is diverted concretely. -/
theorem C1_exact_duplicate_short_circuit_witness :
    read_file_content ⟨"copy.html", 4, true, true, "body"⟩ = some "body" ∧
    (get_report_by_hash [⟨"sber", none, "2023-07", "orig.html", "HB", "raw", false⟩]
      ((⟨[], fun _ => "HB", fun _ _ => .nonDict, true, true⟩ : Env).hashFn "body")).isSome
      = true ∧
    (process_file_enhanced ⟨[], fun _ => "HB", fun _ _ => .nonDict, true, true⟩
        [⟨"sber", none, "2023-07", "orig.html", "HB", "raw", false⟩]
        ⟨"copy.html", 4, true, true, "body"⟩).db
      = [⟨"sber", none, "2023-07", "orig.html", "HB", "raw", false⟩] ∧
    Action.renameInto "copy.html" .exact_duplicates ∈
      (process_file_enhanced ⟨[], fun _ => "HB", fun _ _ => .nonDict, true, true⟩
        [⟨"sber", none, "2023-07", "orig.html", "HB", "raw", false⟩]
        ⟨"copy.html", 4, true, true, "body"⟩).trace :=
  ⟨by decide, by decide,
    (C1_exact_duplicate_short_circuit _ _ _ "body" (by decide) (by decide) (by decide)).1,
    (C1_exact_duplicate_short_circuit _ _ _ "body" (by decide) (by decide) (by decide)).2.1⟩

/-- C3 counterexample: on the exact-duplicate path the file rename is
performed before any database write — the first DB write
(`log_import_file(status='duplicate_detected')`) happens only after
`move_to_duplicate_archive` has already renamed the file.  The claimed
"move only after the DB mutation committed" ordering is false on the code. -/
theorem C3_counterexample :
    movesAfterDbWrite false
      (process_file_enhanced ⟨[], fun _ => "HX", fun _ _ => .nonDict, true, true⟩
        [⟨"sber", none, "2023-07", "orig.html", "HX", "raw", false⟩]
        ⟨"c3copy.html", 4, true, true, "samebody"⟩).trace = false ∧
    Action.dbLogImportFile "duplicate_detected" "c3copy.html" ∈
      (process_file_enhanced ⟨[], fun _ => "HX", fun _ _ => .nonDict, true, true⟩
        [⟨"sber", none, "2023-07", "orig.html", "HX", "raw", false⟩]
        ⟨"c3copy.html", 4, true, true, "samebody"⟩).trace := by
  refine ⟨by decide, by decide⟩

/-- C3 (amended): only on the successful-import path does the code order
the move after the DB mutation: every rename into `imported/` comes after a
committed report insert, and a failed insert prevents the imported move
entirely; on the duplicate paths, by contrast, the rename precedes the
first DB write. -/
theorem C3_move_after_insert_on_import_path (env : Env) (db : DB) (f : SrcFile) :
    importMovesAfterInsert false (process_file_enhanced env db f).trace = true ∧
    (env.insertOk = false →
      (process_file_enhanced env db f).trace.all (fun a => !isImportedMove a) = true) ∧
    (∀ content, read_file_content f = some content → content ≠ "" →
      (get_report_by_hash db (env.hashFn content)).isSome = true →
      renameBeforeFirstDbWrite (process_file_enhanced env db f).trace = true) := by
  refine ⟨?_, ?_, ?_⟩
  · rcases process_insert_structure env db f with h | ⟨_, l1, row, htr, hl1⟩
    · exact importMovesAfterInsert_of_noImported false _ (fun a ha => (h a ha).1)
    · rw [htr]
      simp only [List.append_assoc, List.cons_append, List.nil_append]
      rw [importMovesAfterInsert_append l1 _ hl1]
      simp [importMovesAfterInsert, importMovesAfterInsert_true]
  · intro hins
    rcases process_insert_structure env db f with h | ⟨hins2, _⟩
    · simp only [List.all_eq_true]
      intro a ha
      simp [(h a ha).1]
    · rw [hins] at hins2
      exact absurd hins2 (by simp)
  · intro content hread hne hhash
    rw [exactDup_branch env db f content hread hne hhash]
    cases hrn : env.renameOk <;>
      simp [move_to_duplicate_archive, hrn, renameBeforeFirstDbWrite]

/-- Witness for C3 (amended): the scanner accepts a concrete full-import
trace, and on a concrete exact-duplicate input the rename precedes the
first DB write. -/
theorem C3_move_after_insert_on_import_path_witness :
    importMovesAfterInsert false
      (process_file_enhanced
        ⟨[("sber", ⟨["sber"], []⟩)], (fun _ => "HW"),
          (fun _ _ => .returned ⟨some "2023-08-01", some "A1", []⟩), true, true⟩
        [] ⟨"sber_2023-08.html", 9, true, true, "report"⟩).trace = true ∧
    renameBeforeFirstDbWrite
      (process_file_enhanced ⟨[], fun _ => "HW", fun _ _ => .nonDict, true, true⟩
        [⟨"sber", none, "2023-07", "orig.html", "HW", "raw", false⟩]
        ⟨"c3wit.html", 4, true, true, "samebody"⟩).trace = true :=
  ⟨(C3_move_after_insert_on_import_path
      ⟨[("sber", ⟨["sber"], []⟩)], (fun _ => "HW"),
        (fun _ _ => .returned ⟨some "2023-08-01", some "A1", []⟩), true, true⟩
      [] ⟨"sber_2023-08.html", 9, true, true, "report"⟩).1,
    (C3_move_after_insert_on_import_path
      ⟨[], fun _ => "HW", fun _ _ => .nonDict, true, true⟩
      [⟨"sber", none, "2023-07", "orig.html", "HW", "raw", false⟩]
      ⟨"c3wit.html", 4, true, true, "samebody"⟩).2.2
      "samebody" (by decide) (by decide) (by decide)⟩

/-- A parse-failure status string is never the no-parser status string. -/
theorem parseFailedStatus_ne_noParserStatus (msg : String) :
    ("parse_failed: " ++ msg) ≠ "no_parser_found" := by
  intro h
  have h2 := congrArg String.data h
  rw [String.data_append] at h2
  simp at h2

/-- C2 counterexample: the parser for `sber_2023-07.html` raises, the
filename-derived triple (sber, none, 2023-07) matches a persisted report,
and the pipeline diverts the file to `logical_duplicates` without inserting
any raw record — the claimed "no authoritative semantic-duplicate check on
the parse-failed path" is false on the code. -/
theorem C2_counterexample :
    (parse_file_content
        ⟨[("sber", ⟨["sber"], []⟩)], (fun _ => "H2"), (fun _ _ => .raised "boom"), true, true⟩
        "sber" "x").2.1 = "parse_failed: boom" ∧
    Action.renameInto "sber_2023-07.html" .logical_duplicates ∈
      (process_file_enhanced
        ⟨[("sber", ⟨["sber"], []⟩)], (fun _ => "H2"), (fun _ _ => .raised "boom"), true, true⟩
        [⟨"sber", none, "2023-07", "old.html", "H1", "raw", false⟩]
        ⟨"sber_2023-07.html", 10, true, true, "x"⟩).trace ∧
    Action.fileLogEvent "semantic_duplicate" "sber_2023-07.html" ∈
      (process_file_enhanced
        ⟨[("sber", ⟨["sber"], []⟩)], (fun _ => "H2"), (fun _ _ => .raised "boom"), true, true⟩
        [⟨"sber", none, "2023-07", "old.html", "H1", "raw", false⟩]
        ⟨"sber_2023-07.html", 10, true, true, "x"⟩).trace ∧
    (process_file_enhanced
        ⟨[("sber", ⟨["sber"], []⟩)], (fun _ => "H2"), (fun _ _ => .raised "boom"), true, true⟩
        [⟨"sber", none, "2023-07", "old.html", "H1", "raw", false⟩]
        ⟨"sber_2023-07.html", 10, true, true, "x"⟩).db
      = [⟨"sber", none, "2023-07", "old.html", "H1", "raw", false⟩] := by
  refine ⟨by decide, by decide, by decide, by decide⟩

/-- C2 (amended): on parser failure the pipeline falls back to
filename-derived metadata, but the semantic re-check still runs with the
filename-derived triple: a triple match diverts to `logical_duplicates`
with no insertion, and only a non-match inserts a raw record carrying the
filename-derived broker/account/period. -/
theorem C2_parse_failed_fallback (env : Env) (db : DB) (f : SrcFile)
    (content msg : String) (broker period : String) (account : Option String)
    (hread : read_file_content f = some content) (hne : content ≠ "")
    (hnohash : (get_report_by_hash db (env.hashFn content)).isSome = false)
    (hb : broker = detect_broker_tiered f.name content env.patterns)
    (hp : period = extract_period_from_filename f.name)
    (ha : account = extract_account_from_filename f.name)
    (hsup : is_broker_supported broker = true)
    (hrun : env.parserRun broker content = .raised msg) :
    ((get_report_by_triple db broker account period).isSome = true →
      Action.renameInto f.name .logical_duplicates ∈ (process_file_enhanced env db f).trace ∧
      (process_file_enhanced env db f).db = db) ∧
    ((get_report_by_triple db broker account period).isSome = false →
      env.insertOk = true →
      (process_file_enhanced env db f).db
        = db ++ [⟨broker, account, period, f.name, env.hashFn content, "raw", false⟩]) := by
  subst hb hp ha
  simp only [process_file_enhanced, hread, if_neg hne, is_exact_duplicate, hnohash,
    Bool.false_eq_true, if_false, parse_file_content, hsup, Bool.not_true, hrun,
    if_neg (parseFailedStatus_ne_noParserStatus msg), is_semantic_duplicate, period_mismatch_step]
  constructor
  · intro htrip
    cases hrn : env.renameOk <;>
      simp [htrip, move_to_duplicate_archive, hrn]
  · intro htrip hins
    simp [htrip, hins]

/-- Witness for C2 (amended), exercising both the divert arm (triple
matched) and the insert arm (triple free). -/
theorem C2_parse_failed_fallback_witness :
    ((get_report_by_triple [⟨"sber", none, "2023-07", "old.html", "H1", "raw", false⟩]
        "sber" none "2023-07").isSome = true →
      Action.renameInto "sber_2023-07.html" .logical_duplicates ∈
        (process_file_enhanced
          ⟨[("sber", ⟨["sber"], []⟩)], (fun _ => "H2"), (fun _ _ => .raised "boom"), true, true⟩
          [⟨"sber", none, "2023-07", "old.html", "H1", "raw", false⟩]
          ⟨"sber_2023-07.html", 10, true, true, "x"⟩).trace ∧
      (process_file_enhanced
          ⟨[("sber", ⟨["sber"], []⟩)], (fun _ => "H2"), (fun _ _ => .raised "boom"), true, true⟩
          [⟨"sber", none, "2023-07", "old.html", "H1", "raw", false⟩]
          ⟨"sber_2023-07.html", 10, true, true, "x"⟩).db
        = [⟨"sber", none, "2023-07", "old.html", "H1", "raw", false⟩]) ∧
    ((get_report_by_triple ([] : DB) "sber" none "2023-07").isSome = false →
      true = true →
      (process_file_enhanced
          ⟨[("sber", ⟨["sber"], []⟩)], (fun _ => "H2"), (fun _ _ => .raised "boom"), true, true⟩
          ([] : DB)
          ⟨"sber_2023-07.html", 10, true, true, "x"⟩).db
        = [] ++ [⟨"sber", none, "2023-07", "sber_2023-07.html", "H2", "raw", false⟩]) :=
  ⟨(C2_parse_failed_fallback
      ⟨[("sber", ⟨["sber"], []⟩)], (fun _ => "H2"), (fun _ _ => .raised "boom"), true, true⟩
      [⟨"sber", none, "2023-07", "old.html", "H1", "raw", false⟩]
      ⟨"sber_2023-07.html", 10, true, true, "x"⟩
      "x" "boom" "sber" "2023-07" none (by decide) (by decide) (by decide)
      (by decide) (by decide) (by decide) (by decide) rfl).1,
    (C2_parse_failed_fallback
      ⟨[("sber", ⟨["sber"], []⟩)], (fun _ => "H2"), (fun _ _ => .raised "boom"), true, true⟩
      [] ⟨"sber_2023-07.html", 10, true, true, "x"⟩
      "x" "boom" "sber" "2023-07" none (by decide) (by decide) (by decide)
      (by decide) (by decide) (by decide) (by decide) rfl).2⟩

/-- The decimal renderer agrees char-by-char with `Nat.digits`, so it is
injective. -/
theorem natToStr_inj (m n : Nat) (h : natToStr m = natToStr n) : m = n := by
  have digitChar_inj : ∀ d1 < 10, ∀ d2 < 10,
      Char.ofNat (48 + d1) = Char.ofNat (48 + d2) → d1 = d2 := by decide
  have map_dc_inj : ∀ (l1 l2 : List Nat), (∀ x ∈ l1, x < 10) → (∀ x ∈ l2, x < 10) →
      l1.map (fun d => Char.ofNat (48 + d)) = l2.map (fun d => Char.ofNat (48 + d)) →
      l1 = l2 := by
    intro l1
    induction l1 with
    | nil => intro l2 _ _ hm; cases l2 <;> simp_all
    | cons a t ih =>
      intro l2 h1 h2 hm
      cases l2 with
      | nil => simp at hm
      | cons b t2 =>
        simp only [List.map_cons, List.cons.injEq] at hm
        have hab := digitChar_inj a (h1 a (by simp)) b (h2 b (by simp)) hm.1
        subst hab
        rw [ih t2 (fun x hx => h1 x (by simp [hx])) (fun x hx => h2 x (by simp [hx])) hm.2]
  have digits_eq_of_str : ∀ (m n : Nat), m ≠ 0 → n ≠ 0 →
      natToStr m = natToStr n → m = n := by
    intro m n hm hn hs
    unfold natToStr at hs
    rw [if_neg hm, if_neg hn] at hs
    have hd : ((Nat.digits 10 m).map (fun d => Char.ofNat (48 + d))).reverse
        = ((Nat.digits 10 n).map (fun d => Char.ofNat (48 + d))).reverse := by
      have := congrArg String.data hs; simpa using this
    have H := map_dc_inj (Nat.digits 10 m) (Nat.digits 10 n)
      (fun x hx => Nat.digits_lt_base (by norm_num) hx)
      (fun x hx => Nat.digits_lt_base (by norm_num) hx)
      (List.reverse_injective hd)
    have := congrArg (Nat.ofDigits 10) H
    rwa [Nat.ofDigits_digits, Nat.ofDigits_digits] at this
  by_cases hm : m = 0 <;> by_cases hn : n = 0
  · rw [hm, hn]
  · exfalso
    unfold natToStr at h
    rw [if_pos hm, if_neg hn] at h
    have hd : (['0'] : List Char)
        = ((Nat.digits 10 n).map (fun d => Char.ofNat (48 + d))).reverse := by
      have := congrArg String.data h; simpa using this
    have hd2 : ((['0'] : List Char)).reverse
        = ((Nat.digits 10 n).map (fun d => Char.ofNat (48 + d))) := by
      rw [hd, List.reverse_reverse]
    have H := map_dc_inj [0] (Nat.digits 10 n) (by simp)
      (fun x hx => Nat.digits_lt_base (by norm_num) hx) (by simpa using hd2)
    have := congrArg (Nat.ofDigits 10) H.symm
    rw [Nat.ofDigits_digits] at this
    simp [Nat.ofDigits] at this
    exact hn this
  · exfalso
    unfold natToStr at h
    rw [if_neg hm, if_pos hn] at h
    have hd : ((Nat.digits 10 m).map (fun d => Char.ofNat (48 + d))).reverse
        = (['0'] : List Char) := by
      have := congrArg String.data h; simpa using this
    have hd2 : ((Nat.digits 10 m).map (fun d => Char.ofNat (48 + d)))
        = (['0'] : List Char).reverse := by
      rw [← hd, List.reverse_reverse]
    have H := map_dc_inj (Nat.digits 10 m) [0]
      (fun x hx => Nat.digits_lt_base (by norm_num) hx) (by simp) (by simpa using hd2)
    have := congrArg (Nat.ofDigits 10) H
    rw [Nat.ofDigits_digits] at this
    simp [Nat.ofDigits] at this
    exact hm this
  · exact digits_eq_of_str m n hm hn h

/-- Distinct counters give distinct collision candidates. -/
theorem safeCandidate_inj (stem ext : String) (k1 k2 : Nat)
    (h : safeCandidate stem ext k1 = safeCandidate stem ext k2) : k1 = k2 := by
  unfold safeCandidate at h
  have hd := congrArg String.data h
  simp only [String.data_append] at hd
  have h1 := List.append_cancel_right hd
  have h2 := List.append_cancel_left h1
  apply natToStr_inj
  cases hk1 : natToStr k1; cases hk2 : natToStr k2
  rw [hk1, hk2] at h2
  simp_all

/-- Some candidate among the first `|dir| + 1` counters is free
(pigeonhole over the distinct candidate names). -/
theorem exists_free_candidate (dirNames : List String) (stem ext : String) :
    ∃ j < dirNames.length + 1, safeCandidate stem ext (1 + j) ∉ dirNames := by
  by_contra hall
  push_neg at hall
  have hsub : (List.range (dirNames.length + 1)).map
      (fun j => safeCandidate stem ext (1 + j)) ⊆ dirNames := by
    intro c hc
    simp only [List.mem_map, List.mem_range] at hc
    obtain ⟨j, hj, rfl⟩ := hc
    exact hall j hj
  have hnd : ((List.range (dirNames.length + 1)).map
      (fun j => safeCandidate stem ext (1 + j))).Nodup := by
    refine List.Nodup.map_on ?_ (List.nodup_range _)
    intro x _ y _ hxy
    have := safeCandidate_inj stem ext (1 + x) (1 + y) hxy
    omega
  have hle := (List.subperm_of_subset hnd hsub).length_le
  simp at hle

/-- The collision loop, given enough fuel to reach a free candidate,
returns a fresh suffixed name. -/
theorem safeMoveLoop_finds (dirNames : List String) (stem ext : String) :
    ∀ (fuel start : Nat), (∃ j < fuel, safeCandidate stem ext (start + j) ∉ dirNames) →
      ∃ c, safeMoveLoop dirNames stem ext fuel start = some c ∧ c ∉ dirNames ∧
        ∃ k, start ≤ k ∧ c = safeCandidate stem ext k := by
  intro fuel
  induction fuel with
  | zero => intro start ⟨j, hj, _⟩; omega
  | succ fuel ih =>
    intro start ⟨j, hj, hfree⟩
    by_cases hc : dirNames.contains (safeCandidate stem ext start) = true
    · have hmem : safeCandidate stem ext start ∈ dirNames := by simpa using hc
      have hj0 : j ≠ 0 := by
        intro h0
        rw [h0, Nat.add_zero] at hfree
        exact hfree hmem
      obtain ⟨j2, rfl⟩ := Nat.exists_eq_succ_of_ne_zero hj0
      obtain ⟨c, hcl, hcn, k, hk, hck⟩ := ih (start + 1)
        ⟨j2, by omega, by rw [show start + 1 + j2 = start + (j2 + 1) by omega]; exact hfree⟩
      exact ⟨c, by rw [safeMoveLoop, if_pos hc]; exact hcl, hcn, k, by omega, hck⟩
    · refine ⟨safeCandidate stem ext start, ?_, by simpa using hc, start, le_refl _, rfl⟩
      rw [safeMoveLoop, if_neg hc]

/-- C4 (amended): `FileManager.safe_move_file` itself never overwrites — on
a collision it returns a fresh `stem_k.ext` name and otherwise keeps the
requested name — but the import pipeline's own archival moves
(`move_to_duplicate_archive` and the imported/unrecognized renames) bypass
it, renaming onto the unchanged file name (see the counterexample). -/
theorem C4_safe_move_file_no_overwrite (dirNames : List String) (destName : String) :
    ∃ c, safe_move_file dirNames destName = some c ∧ c ∉ dirNames ∧
      (destName ∈ dirNames →
        ∃ k, 1 ≤ k ∧ c = safeCandidate (pyStem destName) (pySuffix destName) k) ∧
      (destName ∉ dirNames → c = destName) := by
  by_cases hc : dirNames.contains destName = true
  · have hmem : destName ∈ dirNames := by simpa using hc
    obtain ⟨j, hj, hfree⟩ :=
      exists_free_candidate dirNames (pyStem destName) (pySuffix destName)
    obtain ⟨c, hcl, hcn, k, hk, hck⟩ :=
      safeMoveLoop_finds dirNames (pyStem destName) (pySuffix destName)
        (dirNames.length + 1) 1 ⟨j, hj, hfree⟩
    refine ⟨c, ?_, hcn, fun _ => ⟨k, hk, hck⟩, fun hn => absurd hmem hn⟩
    rw [safe_move_file, if_pos hc]
    exact hcl
  · have hmem : destName ∉ dirNames := by simpa using hc
    refine ⟨destName, ?_, hmem, fun hin => absurd hin hmem, fun _ => rfl⟩
    rw [safe_move_file, if_neg hc]

/-- Witness for C4 (amended): on a concrete collision the safe mover picks
`r_1.html`, which is not among the existing names. -/
theorem C4_safe_move_file_no_overwrite_witness :
    ∃ c, safe_move_file ["r.html"] "r.html" = some c ∧ c ∉ ["r.html"] ∧
      ("r.html" ∈ ["r.html"] →
        ∃ k, 1 ≤ k ∧ c = safeCandidate (pyStem "r.html") (pySuffix "r.html") k) ∧
      ("r.html" ∉ ["r.html"] → c = "r.html") :=
  C4_safe_move_file_no_overwrite ["r.html"] "r.html"

/-- C4 counterexample: the archival move the pipeline actually performs on
a duplicate targets the unchanged file name (no numeric suffix), and the
underlying rename replaces the same-named file already in the archive —
the old entry is gone afterwards.  `safe_move_file` would have chosen
`r_1.html`, but the pipeline does not call it. -/
theorem C4_counterexample :
    (move_to_duplicate_archive ⟨[], fun _ => "h", fun _ _ => .nonDict, true, true⟩
      "r.html" "exact_duplicates").2.head?
      = some (.renameInto "r.html" .exact_duplicates) ∧
    ("r.html", "old") ∉ archive_rename [("r.html", "old")] "r.html" "new" ∧
    ("r.html", "new") ∈ archive_rename [("r.html", "old")] "r.html" "new" ∧
    safe_move_file ["r.html"] "r.html" = some "r_1.html" := by
  refine ⟨by decide, by decide, by decide, ?_⟩
  have h1 : natToStr 1 = "1" := by
    have hd : Nat.digits 10 1 = [1] := by simp
    simp only [natToStr, hd, List.map_cons, List.map_nil, List.reverse_cons,
      List.reverse_nil, List.nil_append, if_neg (by omega : (1 : Nat) ≠ 0)]
  have h4 : safeCandidate "r" ".html" 1 = "r_1.html" := by
    rw [safeCandidate, h1]; decide
  have h2 : pyStem "r.html" = "r" := by decide
  have h3 : pySuffix "r.html" = ".html" := by decide
  rw [safe_move_file, if_pos (by decide), h2, h3]
  show safeMoveLoop ["r.html"] "r" ".html" 2 1 = some "r_1.html"
  rw [safeMoveLoop, h4, if_neg (by decide)]

/-- C5: when parsing succeeds and the filename-derived period differs from
the first seven characters of the parsed `period_start`, a
`period_mismatch` event is logged, the authoritative semantic-duplicate
query uses the parser-derived period, any inserted report row carries the
parser-derived period, and the mismatch is not an error: with a free
triple and healthy DB/filesystem the file still imports successfully. -/
theorem C5_parsed_period_wins (env : Env) (db : DB) (f : SrcFile)
    (content : String) (d : ParsedData) (ps broker : String)
    (hread : read_file_content f = some content) (hne : content ≠ "")
    (hnohash : (get_report_by_hash db (env.hashFn content)).isSome = false)
    (hb : broker = detect_broker_tiered f.name content env.patterns)
    (hparse : parse_file_content env broker content
      = (some d, "success", [.parserLookup broker, .parseInvoke broker]))
    (hps : d.period_start = some ps)
    (hmis : extract_period_from_filename f.name ≠ ps.take 7) :
    Action.fileLogEvent "period_mismatch" f.name ∈ (process_file_enhanced env db f).trace ∧
    (∃ acc2, Action.dbFindByTriple broker acc2 (ps.take 7)
      ∈ (process_file_enhanced env db f).trace) ∧
    (∀ r, Action.dbInsert r ∈ (process_file_enhanced env db f).trace →
      r.period = ps.take 7) ∧
    (env.insertOk = true → env.renameOk = true →
      (get_report_by_triple db broker
        (d.account_number.orElse fun _ =>
          d.account_number.orElse fun _ => extract_account_from_filename f.name)
        (ps.take 7)).isSome = false →
      (process_file_enhanced env db f).ok = true) := by
  subst hb
  have hstep : period_mismatch_step f.name (extract_period_from_filename f.name)
      (extract_account_from_filename f.name) (some d)
      = (ps.take 7, d.account_number.orElse fun _ => extract_account_from_filename f.name,
        [.fileLogEvent "period_mismatch" f.name]) := by
    simp [period_mismatch_step, hps, hmis]
  have hparse1 : (parse_file_content env (detect_broker_tiered f.name content env.patterns)
      content).1 = some d := by rw [hparse]
  have hparse2 : (parse_file_content env (detect_broker_tiered f.name content env.patterns)
      content).2.1 = "success" := by rw [hparse]
  have hparse3 : (parse_file_content env (detect_broker_tiered f.name content env.patterns)
      content).2.2 = [.parserLookup (detect_broker_tiered f.name content env.patterns),
        .parseInvoke (detect_broker_tiered f.name content env.patterns)] := by rw [hparse]
  have hsem2 : ∀ acc per, is_semantic_duplicate db
      (detect_broker_tiered f.name content env.patterns) acc per (some d)
      = ((get_report_by_triple db (detect_broker_tiered f.name content env.patterns)
            (d.account_number.orElse fun _ => acc) (ps.take 7)).isSome,
         get_report_by_triple db (detect_broker_tiered f.name content env.patterns)
            (d.account_number.orElse fun _ => acc) (ps.take 7),
         .dbFindByTriple (detect_broker_tiered f.name content env.patterns)
            (d.account_number.orElse fun _ => acc) (ps.take 7)) := by
    intro acc per
    simp [is_semantic_duplicate, hps]
  obtain ⟨b1, a1, p1, hq1⟩ := sem_action_shape db
    (detect_broker_tiered f.name content env.patterns)
    (extract_account_from_filename f.name) (extract_period_from_filename f.name) none
  simp only [process_file_enhanced, hread, if_neg hne, is_exact_duplicate, hnohash,
    Bool.false_eq_true, if_false, hparse1, hparse2, hparse3, hq1,
    if_neg (show ¬(("success" : String) = "no_parser_found") by decide)]
  rw [hstep]
  dsimp only
  rw [hsem2 (d.account_number.orElse fun _ => extract_account_from_filename f.name)
    (ps.take 7)]
  dsimp only
  refine ⟨?_, ?_, ?_, ?_⟩
  · by_cases hsem : (get_report_by_triple db (detect_broker_tiered f.name content env.patterns)
        (d.account_number.orElse fun _ =>
          d.account_number.orElse fun _ => extract_account_from_filename f.name)
        (ps.take 7)).isSome = true
    · rcases mv_trace_shape env f.name "logical_duplicates" (Or.inr rfl) with
        ⟨dir, _, hmv | hmv⟩ <;> simp [hsem, hmv]
    · rw [Bool.not_eq_true] at hsem
      by_cases hins : env.insertOk = true <;>
        simp [hsem, hins]
  · refine ⟨d.account_number.orElse fun _ =>
      d.account_number.orElse fun _ => extract_account_from_filename f.name, ?_⟩
    by_cases hsem : (get_report_by_triple db (detect_broker_tiered f.name content env.patterns)
        (d.account_number.orElse fun _ =>
          d.account_number.orElse fun _ => extract_account_from_filename f.name)
        (ps.take 7)).isSome = true
    · rcases mv_trace_shape env f.name "logical_duplicates" (Or.inr rfl) with
        ⟨dir, _, hmv | hmv⟩ <;> simp [hsem, hmv]
    · rw [Bool.not_eq_true] at hsem
      by_cases hins : env.insertOk = true <;>
        simp [hsem, hins]
  · intro r hr
    by_cases hsem : (get_report_by_triple db (detect_broker_tiered f.name content env.patterns)
        (d.account_number.orElse fun _ =>
          d.account_number.orElse fun _ => extract_account_from_filename f.name)
        (ps.take 7)).isSome = true
    · rcases mv_trace_shape env f.name "logical_duplicates" (Or.inr rfl) with
        ⟨dir, _, hmv | hmv⟩ <;> simp [hsem, hmv] at hr
    · rw [Bool.not_eq_true] at hsem
      by_cases hins : env.insertOk = true
      · simp [hsem, hins] at hr
        rw [hr]
      · simp [hsem, hins] at hr
  · intro hins hrn hsem
    simp [hsem, hins, hrn]

/-- Witness for C5: filename says 2023-07, the parser says 2023-08-01;
the record imports with period 2023-08 and a period_mismatch event. -/
theorem C5_parsed_period_wins_witness :
    Action.fileLogEvent "period_mismatch" "sber_2023-07.html" ∈
      (process_file_enhanced
        ⟨[("sber", ⟨["sber"], []⟩)], (fun _ => "H5"),
          (fun _ _ => .returned ⟨some "2023-08-01", some "A1", []⟩), true, true⟩
        [] ⟨"sber_2023-07.html", 10, true, true, "x"⟩).trace ∧
    (∀ r, Action.dbInsert r ∈
      (process_file_enhanced
        ⟨[("sber", ⟨["sber"], []⟩)], (fun _ => "H5"),
          (fun _ _ => .returned ⟨some "2023-08-01", some "A1", []⟩), true, true⟩
        [] ⟨"sber_2023-07.html", 10, true, true, "x"⟩).trace →
      r.period = ("2023-08-01" : String).take 7) ∧
    (process_file_enhanced
        ⟨[("sber", ⟨["sber"], []⟩)], (fun _ => "H5"),
          (fun _ _ => .returned ⟨some "2023-08-01", some "A1", []⟩), true, true⟩
        [] ⟨"sber_2023-07.html", 10, true, true, "x"⟩).ok = true :=
  ⟨(C5_parsed_period_wins
      ⟨[("sber", ⟨["sber"], []⟩)], (fun _ => "H5"),
        (fun _ _ => .returned ⟨some "2023-08-01", some "A1", []⟩), true, true⟩
      [] ⟨"sber_2023-07.html", 10, true, true, "x"⟩
      "x" ⟨some "2023-08-01", some "A1", []⟩ "2023-08-01" "sber"
      (by decide) (by decide) (by decide) (by decide) (by decide)
      (by decide) (by decide)).1,
    (C5_parsed_period_wins
      ⟨[("sber", ⟨["sber"], []⟩)], (fun _ => "H5"),
        (fun _ _ => .returned ⟨some "2023-08-01", some "A1", []⟩), true, true⟩
      [] ⟨"sber_2023-07.html", 10, true, true, "x"⟩
      "x" ⟨some "2023-08-01", some "A1", []⟩ "2023-08-01" "sber"
      (by decide) (by decide) (by decide) (by decide) (by decide)
      (by decide) (by decide)).2.2.1,
    (C5_parsed_period_wins
      ⟨[("sber", ⟨["sber"], []⟩)], (fun _ => "H5"),
        (fun _ _ => .returned ⟨some "2023-08-01", some "A1", []⟩), true, true⟩
      [] ⟨"sber_2023-07.html", 10, true, true, "x"⟩
      "x" ⟨some "2023-08-01", some "A1", []⟩ "2023-08-01" "sber"
      (by decide) (by decide) (by decide) (by decide) (by decide)
      (by decide) (by decide)).2.2.2 (by decide) (by decide) (by decide)⟩

/-- The classifier exactly as claim C6 words it, for refinement
comparison: the first broker in table order with a matching filename
pattern — any broker, including an entry keyed `"unknown"` — else the
first broker with a matching content pattern, else `"unknown"`. -/
def claimClassify (fileName content : String) (patterns : PatternTable) : String :=
  match patterns.find? (fun e =>
      e.2.filename_patterns.any (fun pat => strContains (pyLower fileName) (pyLower pat))) with
  | some e => e.1
  | none =>
    match patterns.find? (fun e =>
        e.2.html_patterns.any (fun pat => strContains (pyLower content) (pyLower pat))) with
    | some e => e.1
    | none => "unknown"

/-- The classifier per the amended claim: the same first-match-wins
tiering, but pattern-table entries keyed `"unknown"` are skipped in both
tiers. -/
def amendedClassify (fileName content : String) (patterns : PatternTable) : String :=
  match patterns.find? (fun e => !(e.1 == "unknown") &&
      e.2.filename_patterns.any (fun pat => strContains (pyLower fileName) (pyLower pat))) with
  | some e => e.1
  | none =>
    match patterns.find? (fun e => !(e.1 == "unknown") &&
        e.2.html_patterns.any (fun pat => strContains (pyLower content) (pyLower pat))) with
    | some e => e.1
    | none => "unknown"

/-- Tier 1 is the first filename match among entries not keyed "unknown". -/
theorem tierFilename_eq (patterns : PatternTable) (fl : String) :
    tierFilename patterns fl
      = (patterns.find? (fun e => !(e.1 == "unknown") &&
          e.2.filename_patterns.any (fun pat => strContains fl (pyLower pat)))).map
          (fun e => e.1) := by
  induction patterns with
  | nil => rfl
  | cons e rest ih =>
    obtain ⟨b, cfg⟩ := e
    by_cases hb : b = "unknown"
    · subst hb
      simp only [tierFilename, if_pos rfl, ih]
      rw [List.find?_cons_of_neg _ (by simp)]
      simp
    · by_cases hm : cfg.filename_patterns.any (fun pat => strContains fl (pyLower pat)) = true
      · simp only [tierFilename, if_neg hb, hm, if_true]
        rw [List.find?_cons_of_pos _ (by simp [hb, hm])]
        simp
      · simp only [tierFilename, if_neg hb, hm, Bool.false_eq_true, if_false, ih]
        rw [List.find?_cons_of_neg _ (by simp [hb, hm])]

/-- Tier 2 is the first content match among entries not keyed "unknown". -/
theorem tierContent_eq (patterns : PatternTable) (cl : String) :
    tierContent patterns cl
      = (patterns.find? (fun e => !(e.1 == "unknown") &&
          e.2.html_patterns.any (fun pat => strContains cl (pyLower pat)))).map
          (fun e => e.1) := by
  induction patterns with
  | nil => rfl
  | cons e rest ih =>
    obtain ⟨b, cfg⟩ := e
    by_cases hb : b = "unknown"
    · subst hb
      simp only [tierContent, if_pos rfl, ih]
      rw [List.find?_cons_of_neg _ (by simp)]
      simp
    · by_cases hm : cfg.html_patterns.any (fun pat => strContains cl (pyLower pat)) = true
      · simp only [tierContent, if_neg hb, hm, if_true]
        rw [List.find?_cons_of_pos _ (by simp [hb, hm])]
        simp
      · simp only [tierContent, if_neg hb, hm, Bool.false_eq_true, if_false, ih]
        rw [List.find?_cons_of_neg _ (by simp [hb, hm])]

/-- C6 counterexample: with a pattern table whose first entry is keyed
`"unknown"` and has a matching filename pattern, the code skips it, goes
on to consult content patterns, and returns `"sber"` — while the claim, as
stated, requires returning the first filename-matching broker
(`"unknown"`) without consulting any content pattern.  The classifier's
output also demonstrably depends on the content here. -/
theorem C6_counterexample :
    detect_broker_tiered "abc.html" "hello"
      [("unknown", ⟨["abc"], []⟩), ("sber", ⟨[], ["hello"]⟩)] = "sber" ∧
    claimClassify "abc.html" "hello"
      [("unknown", ⟨["abc"], []⟩), ("sber", ⟨[], ["hello"]⟩)] = "unknown" ∧
    detect_broker_tiered "abc.html" "zzz"
      [("unknown", ⟨["abc"], []⟩), ("sber", ⟨[], ["hello"]⟩)] = "unknown" := by
  refine ⟨by decide, by decide, by decide⟩

/-- C6 (amended): classification is exactly the claimed two-tier
first-match-wins scan — first broker whose filename pattern matches
(case-insensitive substring), else first broker whose content pattern
matches, else `"unknown"` — except that pattern-table entries keyed
`"unknown"` are skipped in both tiers. -/
theorem C6_classifier_first_match (fileName content : String) (patterns : PatternTable) :
    detect_broker_tiered fileName content patterns
      = amendedClassify fileName content patterns := by
  unfold detect_broker_tiered amendedClassify
  dsimp only
  rw [tierFilename_eq, tierContent_eq]
  rcases hf : List.find? (fun e => !(e.1 == "unknown") &&
      e.2.filename_patterns.any (fun pat => strContains (pyLower fileName) (pyLower pat)))
      patterns with _ | e1
  · rcases hg : List.find? (fun e => !(e.1 == "unknown") &&
        e.2.html_patterns.any (fun pat => strContains (pyLower content) (pyLower pat)))
        patterns with _ | e2
    · simp [hf, hg]
    · simp [hf, hg]
  · simp [hf]

/-- C7: a file classified to a broker with no registered parser capability
(the registry holds only `sber`, so in particular the identifier
`"unknown"` has none) ends as `no_parser_found`: it is renamed into the
unrecognized archive, the outcome is logged to the DB and the event log,
and no report record is inserted. -/
theorem C7_no_parser_unrecognized (env : Env) (db : DB) (f : SrcFile)
    (content broker : String)
    (hread : read_file_content f = some content) (hne : content ≠ "")
    (hnohash : (get_report_by_hash db (env.hashFn content)).isSome = false)
    (hb : broker = detect_broker_tiered f.name content env.patterns)
    (hsup : is_broker_supported broker = false) :
    is_broker_supported "unknown" = false ∧
    Action.renameInto f.name .unrecognized ∈ (process_file_enhanced env db f).trace ∧
    (env.renameOk = true →
      Action.fileLogEvent "no_parser_found" f.name ∈ (process_file_enhanced env db f).trace ∧
      Action.dbLogImportFile "skipped" f.name ∈ (process_file_enhanced env db f).trace ∧
      (process_file_enhanced env db f).ok = true) ∧
    (process_file_enhanced env db f).db = db ∧
    (process_file_enhanced env db f).trace.all (fun a => !a.isInsertStep) = true := by
  subst hb
  obtain ⟨b1, a1, p1, hq1⟩ := sem_action_shape db
    (detect_broker_tiered f.name content env.patterns)
    (extract_account_from_filename f.name) (extract_period_from_filename f.name) none
  have hpf : parse_file_content env (detect_broker_tiered f.name content env.patterns)
      content = (none, "no_parser_found",
        [.parserLookup (detect_broker_tiered f.name content env.patterns)]) := by
    simp [parse_file_content, hsup]
  have hpf1 : (parse_file_content env (detect_broker_tiered f.name content env.patterns)
      content).2.1 = "no_parser_found" := by rw [hpf]
  have hpf2 : (parse_file_content env (detect_broker_tiered f.name content env.patterns)
      content).2.2 = [.parserLookup (detect_broker_tiered f.name content env.patterns)] := by
    rw [hpf]
  simp only [process_file_enhanced, hread, if_neg hne, is_exact_duplicate, hnohash,
    Bool.false_eq_true, if_false, hq1, hpf1, hpf2, if_pos rfl]
  refine ⟨by decide, ?_, ?_, ?_, ?_⟩ <;>
    cases hrn : env.renameOk <;>
      simp [hrn, Action.isInsertStep]

/-- Witness for C7: a file no broker pattern matches is classified
`"unknown"` and archived as unrecognized. -/
theorem C7_no_parser_unrecognized_witness :
    is_broker_supported "unknown" = false ∧
    Action.renameInto "mystery.html" .unrecognized ∈
      (process_file_enhanced ⟨[], fun _ => "H7", fun _ _ => .nonDict, true, true⟩
        [] ⟨"mystery.html", 7, true, true, "m"⟩).trace ∧
    Action.fileLogEvent "no_parser_found" "mystery.html" ∈
      (process_file_enhanced ⟨[], fun _ => "H7", fun _ _ => .nonDict, true, true⟩
        [] ⟨"mystery.html", 7, true, true, "m"⟩).trace ∧
    (process_file_enhanced ⟨[], fun _ => "H7", fun _ _ => .nonDict, true, true⟩
        [] ⟨"mystery.html", 7, true, true, "m"⟩).db = [] :=
  ⟨(C7_no_parser_unrecognized ⟨[], fun _ => "H7", fun _ _ => .nonDict, true, true⟩
      [] ⟨"mystery.html", 7, true, true, "m"⟩ "m" "unknown"
      (by decide) (by decide) (by decide) (by decide) (by decide)).1,
    (C7_no_parser_unrecognized ⟨[], fun _ => "H7", fun _ _ => .nonDict, true, true⟩
      [] ⟨"mystery.html", 7, true, true, "m"⟩ "m" "unknown"
      (by decide) (by decide) (by decide) (by decide) (by decide)).2.1,
    ((C7_no_parser_unrecognized ⟨[], fun _ => "H7", fun _ _ => .nonDict, true, true⟩
      [] ⟨"mystery.html", 7, true, true, "m"⟩ "m" "unknown"
      (by decide) (by decide) (by decide) (by decide) (by decide)).2.2.1 rfl).1,
    (C7_no_parser_unrecognized ⟨[], fun _ => "H7", fun _ _ => .nonDict, true, true⟩
      [] ⟨"mystery.html", 7, true, true, "m"⟩ "m" "unknown"
      (by decide) (by decide) (by decide) (by decide) (by decide)).2.2.2.1⟩

/-- A fruitful substring test decomposes the haystack. -/
theorem hasSubstr_decomp (hay pat : List Char) (h : hasSubstr hay pat = true) :
    ∃ pre suf, hay = pre ++ pat ++ suf := by
  induction hay with
  | nil =>
    rw [hasSubstr] at h
    exact ⟨[], [], by simp [List.isEmpty_iff.mp h]⟩
  | cons c t ih =>
    rw [hasSubstr, Bool.or_eq_true] at h
    rcases h with hp | hs
    · obtain ⟨suf, hsuf⟩ := List.isPrefixOf_iff_prefix.mp hp
      exact ⟨[], suf, by rw [← hsuf]; simp⟩
    · obtain ⟨pre, suf, h2⟩ := ih hs
      exact ⟨c :: pre, suf, by simp [h2]⟩

/-- A four-digit match needs a digit at its head. -/
theorem year4At_none (cs : List Char) (h : ∀ c ∈ cs, c.isDigit = false) :
    year4At cs = none := by
  match cs, h with
  | [], _ => rfl
  | [a], _ => rfl
  | [a, b], _ => rfl
  | [a, b, c], _ => rfl
  | a :: b :: c :: d :: rest, h => simp [year4At, h a (by simp)]

/-- No digits anywhere, no four-digit year anywhere. -/
theorem searchYear_none (cs : List Char) (h : ∀ c ∈ cs, c.isDigit = false) :
    searchYear cs = none := by
  induction cs with
  | nil => rfl
  | cons c t ih =>
    rw [searchYear, year4At_none (c :: t) h]
    exact ih (fun x hx => h x (by simp [hx]))

/-- A `YYYY-MM` match needs a digit at its head. -/
theorem yyyymmAt_none (cs : List Char) (h : ∀ c ∈ cs, c.isDigit = false) :
    yyyymmAt cs = none := by
  match cs, h with
  | [], _ => rfl
  | [a], _ => rfl
  | [a, b], _ => rfl
  | [a, b, c], _ => rfl
  | [a, b, c, d], _ => rfl
  | [a, b, c, d, e], _ => rfl
  | [a, b, c, d, e, f], _ => rfl
  | a :: b :: c :: d :: e :: f :: g :: rest, h => simp [yyyymmAt, h a (by simp)]

/-- No digits anywhere, no `YYYY-MM` token anywhere. -/
theorem searchYYYYMM_none (cs : List Char) (h : ∀ c ∈ cs, c.isDigit = false) :
    searchYYYYMM cs = none := by
  induction cs with
  | nil => rfl
  | cons c t ih =>
    rw [searchYYYYMM, yyyymmAt_none (c :: t) h]
    exact ih (fun x hx => h x (by simp [hx]))

/-- The semantic check without parsed data is the plain triple query. -/
theorem is_semantic_duplicate_none (db : DB) (b : String) (acc : Option String)
    (p : String) :
    is_semantic_duplicate db b acc p none
      = ((get_report_by_triple db b acc p).isSome, get_report_by_triple db b acc p,
        .dbFindByTriple b acc p) := rfl

/-- Past stage 1, the pipeline always performs the provisional
filename-triple query and the parser-registry lookup, whatever happens
afterwards. -/
theorem pipeline_proceeds (env : Env) (db : DB) (f : SrcFile) (content : String)
    (hread : read_file_content f = some content) (hne : content ≠ "")
    (hnohash : (get_report_by_hash db (env.hashFn content)).isSome = false) :
    Action.dbFindByTriple (detect_broker_tiered f.name content env.patterns)
      (extract_account_from_filename f.name) (extract_period_from_filename f.name)
      ∈ (process_file_enhanced env db f).trace ∧
    Action.parserLookup (detect_broker_tiered f.name content env.patterns)
      ∈ (process_file_enhanced env db f).trace := by
  obtain ⟨b2, a2, p2, hq2⟩ := sem_action_shape db
    (detect_broker_tiered f.name content env.patterns)
    (period_mismatch_step f.name (extract_period_from_filename f.name)
      (extract_account_from_filename f.name)
      (parse_file_content env (detect_broker_tiered f.name content env.patterns)
        content).1).2.1
    (period_mismatch_step f.name (extract_period_from_filename f.name)
      (extract_account_from_filename f.name)
      (parse_file_content env (detect_broker_tiered f.name content env.patterns)
        content).1).1
    (parse_file_content env (detect_broker_tiered f.name content env.patterns)
      content).1
  rcases parse_trace_shape env (detect_broker_tiered f.name content env.patterns)
    content with hptr | hptr <;>
  rcases step7_trace_shape f.name (extract_period_from_filename f.name)
    (extract_account_from_filename f.name)
    (parse_file_content env (detect_broker_tiered f.name content env.patterns)
      content).1 with hev | hev <;>
  by_cases hnp : (parse_file_content env (detect_broker_tiered f.name content
      env.patterns) content).2.1 = "no_parser_found" <;>
  by_cases hsem : (is_semantic_duplicate db
      (detect_broker_tiered f.name content env.patterns)
      (period_mismatch_step f.name (extract_period_from_filename f.name)
        (extract_account_from_filename f.name)
        (parse_file_content env (detect_broker_tiered f.name content env.patterns)
          content).1).2.1
      (period_mismatch_step f.name (extract_period_from_filename f.name)
        (extract_account_from_filename f.name)
        (parse_file_content env (detect_broker_tiered f.name content env.patterns)
          content).1).1
      (parse_file_content env (detect_broker_tiered f.name content env.patterns)
        content).1).1 = true <;>
  cases hrn : env.renameOk <;>
  by_cases hins : env.insertOk = true <;>
  · constructor <;>
      simp [process_file_enhanced, hread, hne, is_exact_duplicate, hnohash,
        is_semantic_duplicate_none, hptr, hev, hq2, hnp, hsem, hrn, hins,
        move_to_duplicate_archive]

/-- C8 counterexample: for a filename from which nothing can be
extracted, the period is not `None` but the sentinel string `"unknown"`,
and the pipeline goes on to use that string as an actual period value in
its provisional triple query. -/
theorem C8_counterexample :
    extract_period_from_filename "report.html" = "unknown" ∧
    extract_account_from_filename "report.html" = none ∧
    Action.dbFindByTriple "unknown" none "unknown" ∈
      (process_file_enhanced ⟨[], fun _ => "H8", fun _ _ => .nonDict, true, true⟩
        [] ⟨"report.html", 6, true, true, "r"⟩).trace := by
  refine ⟨by decide, by decide, by decide⟩

/-- C8 (amended): extraction prefers a `YYYY-MM` token; absent that, a
four-digit year together with a recognized month token (the source's
`elif` chain) synthesizes `YYYY-MM`; and when nothing can be extracted the
account is `None` and the period is the string `"unknown"` — no error: the
pipeline proceeds to classification, the provisional triple query and the
parser lookup. -/
theorem C8_filename_extraction (name : String) (env : Env) (db : DB) (f : SrcFile)
    (content : String) :
    (∀ y m, searchYYYYMM name.data = some (y, m) →
      extract_period_from_filename name = y ++ "-" ++ m) ∧
    (∀ y mm, searchYYYYMM name.data = none → searchYear name.data = some y →
      guessMonth name = some mm →
      extract_period_from_filename name = y ++ "-" ++ mm) ∧
    ((∀ c ∈ name.data, c.isDigit = false) →
      extract_period_from_filename name = "unknown" ∧
      extract_account_from_filename name = none) ∧
    (read_file_content f = some content → content ≠ "" →
      (get_report_by_hash db (env.hashFn content)).isSome = false →
      Action.parserLookup (detect_broker_tiered f.name content env.patterns)
        ∈ (process_file_enhanced env db f).trace) := by
  refine ⟨?_, ?_, ?_, ?_⟩
  · intro y m hy
    rw [extract_period_from_filename, hy]
  · intro y mm hy hyear hmm
    rw [extract_period_from_filename, hy, hyear, hmm]
  · intro hnod
    refine ⟨?_, ?_⟩
    · rw [extract_period_from_filename, searchYYYYMM_none name.data hnod,
        searchYear_none name.data hnod]
    · rw [extract_account_from_filename]
      have h4 : strContains name "4000T49" = false := by
        by_contra hc
        rw [Bool.not_eq_false] at hc
        obtain ⟨pre, suf, hdec⟩ := hasSubstr_decomp name.data ("4000T49").data hc
        have : ('4' : Char) ∈ name.data := by
          rw [hdec]; simp [String.data]
        simpa using hnod '4' this
      have hS : strContains name "S000T49" = false := by
        by_contra hc
        rw [Bool.not_eq_false] at hc
        obtain ⟨pre, suf, hdec⟩ := hasSubstr_decomp name.data ("S000T49").data hc
        have : ('0' : Char) ∈ name.data := by
          rw [hdec]; simp [String.data]
        simpa using hnod '0' this
      rw [h4, hS]
      rfl
  · intro hread hne hnohash
    exact (pipeline_proceeds env db f content hread hne hnohash).2

/-- Witness for C8 (amended), at `report_2023-07.html` (token preferred),
`otchet2023mart.html` (synthesis — contains "03"? no: month from Russian
name), and `report.html` (nothing extractable, pipeline proceeds). -/
theorem C8_filename_extraction_witness :
    extract_period_from_filename "report.html" = "unknown" ∧
    extract_account_from_filename "report.html" = none ∧
    Action.parserLookup (detect_broker_tiered "report.html" "r" []) ∈
      (process_file_enhanced ⟨[], fun _ => "H8w", fun _ _ => .nonDict, true, true⟩
        [] ⟨"report.html", 6, true, true, "r"⟩).trace :=
  ⟨((C8_filename_extraction "report.html"
      ⟨[], fun _ => "H8w", fun _ _ => .nonDict, true, true⟩
      [] ⟨"report.html", 6, true, true, "r"⟩ "r").2.2.1 (by decide)).1,
    ((C8_filename_extraction "report.html"
      ⟨[], fun _ => "H8w", fun _ _ => .nonDict, true, true⟩
      [] ⟨"report.html", 6, true, true, "r"⟩ "r").2.2.1 (by decide)).2,
    (C8_filename_extraction "report.html"
      ⟨[], fun _ => "H8w", fun _ _ => .nonDict, true, true⟩
      [] ⟨"report.html", 6, true, true, "r"⟩ "r").2.2.2
      (by decide) (by decide) (by decide)⟩

/-- The PDF placeholder is never the empty string. -/
theorem pdf_placeholder_ne_empty (s : String) :
    ("[PDF_CONTENT_PLACEHOLDER: " ++ s ++ "]") ≠ "" := by
  intro h
  have h2 := congrArg String.data h
  simp only [String.data_append] at h2
  simp at h2

/-- C9: for `.pdf` files the pipeline's content is the fixed placeholder
string depending only on the file name, so two PDF files with the same
name — whatever their bytes — get identical content and hence identical
SHA-256 fingerprints, and once a report with that fingerprint is
persisted, the second file is diverted as an exact duplicate. -/
theorem C9_pdf_placeholder_collision (f1 f2 : SrcFile)
    (hext1 : pyLower (pySuffix f1.name) = ".pdf")
    (hname : f1.name = f2.name)
    (hr1 : f1.readable = true) (hr2 : f2.readable = true)
    (hs1 : f1.sizeBytes ≤ 50 * 1024 * 1024) (hs2 : f2.sizeBytes ≤ 50 * 1024 * 1024) :
    read_file_content f1 = some ("[PDF_CONTENT_PLACEHOLDER: " ++ f1.name ++ "]") ∧
    read_file_content f1 = read_file_content f2 ∧
    (∀ env : Env,
      env.hashFn ((read_file_content f1).getD "")
        = env.hashFn ((read_file_content f2).getD "")) ∧
    (∀ (env : Env) (db : DB),
      (get_report_by_hash db
        (env.hashFn ("[PDF_CONTENT_PLACEHOLDER: " ++ f1.name ++ "]"))).isSome = true →
      (process_file_enhanced env db f2).db = db ∧
      Action.renameInto f2.name .exact_duplicates ∈ (process_file_enhanced env db f2).trace) := by
  have hread1 : read_file_content f1
      = some ("[PDF_CONTENT_PLACEHOLDER: " ++ f1.name ++ "]") := by
    rw [read_file_content, hr1]
    rw [if_neg (by simp), if_neg (by omega), if_neg (by simp [hext1]),
      if_pos hext1]
  have hext2 : pyLower (pySuffix f2.name) = ".pdf" := by rw [← hname]; exact hext1
  have hread2 : read_file_content f2
      = some ("[PDF_CONTENT_PLACEHOLDER: " ++ f2.name ++ "]") := by
    rw [read_file_content, hr2]
    rw [if_neg (by simp), if_neg (by omega), if_neg (by simp [hext2]),
      if_pos hext2]
  refine ⟨hread1, by rw [hread1, hread2, hname], fun env => by rw [hread1, hread2, hname],
    fun env db hhash => ?_⟩
  have h := exactDup_branch env db f2 ("[PDF_CONTENT_PLACEHOLDER: " ++ f2.name ++ "]")
    hread2 (pdf_placeholder_ne_empty f2.name) (by rw [← hname]; exact hhash)
  rw [h]
  refine ⟨rfl, ?_⟩
  cases hrn : env.renameOk <;> simp [move_to_duplicate_archive, hrn]

/-- Witness for C9: two same-named PDFs with different bytes; with the
placeholder's fingerprint persisted, the second is diverted. -/
theorem C9_pdf_placeholder_collision_witness :
    read_file_content ⟨"st.pdf", 3, true, true, "AAA"⟩
      = some ("[PDF_CONTENT_PLACEHOLDER: " ++ "st.pdf" ++ "]") ∧
    read_file_content ⟨"st.pdf", 3, true, true, "AAA"⟩
      = read_file_content ⟨"st.pdf", 5, true, true, "BBBBB"⟩ ∧
    (process_file_enhanced ⟨[], (fun c => c), fun _ _ => .nonDict, true, true⟩
      [⟨"sber", none, "2023-07", "st.pdf", "[PDF_CONTENT_PLACEHOLDER: st.pdf]", "raw", false⟩]
      ⟨"st.pdf", 5, true, true, "BBBBB"⟩).db
      = [⟨"sber", none, "2023-07", "st.pdf", "[PDF_CONTENT_PLACEHOLDER: st.pdf]", "raw", false⟩] ∧
    Action.renameInto "st.pdf" .exact_duplicates ∈
      (process_file_enhanced ⟨[], (fun c => c), fun _ _ => .nonDict, true, true⟩
        [⟨"sber", none, "2023-07", "st.pdf", "[PDF_CONTENT_PLACEHOLDER: st.pdf]", "raw", false⟩]
        ⟨"st.pdf", 5, true, true, "BBBBB"⟩).trace :=
  ⟨(C9_pdf_placeholder_collision ⟨"st.pdf", 3, true, true, "AAA"⟩
      ⟨"st.pdf", 5, true, true, "BBBBB"⟩
      (by decide) (by decide) (by decide) (by decide) (by decide) (by decide)).1,
    (C9_pdf_placeholder_collision ⟨"st.pdf", 3, true, true, "AAA"⟩
      ⟨"st.pdf", 5, true, true, "BBBBB"⟩
      (by decide) (by decide) (by decide) (by decide) (by decide) (by decide)).2.1,
    ((C9_pdf_placeholder_collision ⟨"st.pdf", 3, true, true, "AAA"⟩
      ⟨"st.pdf", 5, true, true, "BBBBB"⟩
      (by decide) (by decide) (by decide) (by decide) (by decide) (by decide)).2.2.2
      ⟨[], (fun c => c), fun _ _ => .nonDict, true, true⟩
      [⟨"sber", none, "2023-07", "st.pdf", "[PDF_CONTENT_PLACEHOLDER: st.pdf]", "raw", false⟩]
      (by decide)).1,
    ((C9_pdf_placeholder_collision ⟨"st.pdf", 3, true, true, "AAA"⟩
      ⟨"st.pdf", 5, true, true, "BBBBB"⟩
      (by decide) (by decide) (by decide) (by decide) (by decide) (by decide)).2.2.2
      ⟨[], (fun c => c), fun _ _ => .nonDict, true, true⟩
      [⟨"sber", none, "2023-07", "st.pdf", "[PDF_CONTENT_PLACEHOLDER: st.pdf]", "raw", false⟩]
      (by decide)).2⟩

/-- Every action in a per-file trace concerns that file (or no file at
all): traces never mention another file's name. -/
theorem process_trace_locality (env : Env) (db : DB) (f : SrcFile) :
    ((process_file_enhanced env db f).trace.all
      (fun a => (a.file? == none) || (a.file? == some f.name))) = true := by
  rcases hread : read_file_content f with _ | content
  · simp [process_file_enhanced, hread, Action.file?]
  · by_cases hne : content = ""
    · simp [process_file_enhanced, hread, hne, Action.file?]
    · by_cases hex : (get_report_by_hash db (env.hashFn content)).isSome = true
      · rcases mv_trace_shape env f.name "exact_duplicates" (Or.inl rfl) with
          ⟨dir, _, hmv | hmv⟩ <;>
          simp [process_file_enhanced, hread, hne, is_exact_duplicate, hex, hmv,
            Action.file?]
      · rw [Bool.not_eq_true] at hex
        obtain ⟨b1, a1, p1, hq1⟩ := sem_action_shape db
          (detect_broker_tiered f.name content env.patterns)
          (extract_account_from_filename f.name) (extract_period_from_filename f.name) none
        obtain ⟨b2, a2, p2, hq2⟩ := sem_action_shape db
          (detect_broker_tiered f.name content env.patterns)
          (period_mismatch_step f.name (extract_period_from_filename f.name)
            (extract_account_from_filename f.name)
            (parse_file_content env (detect_broker_tiered f.name content env.patterns)
              content).1).2.1
          (period_mismatch_step f.name (extract_period_from_filename f.name)
            (extract_account_from_filename f.name)
            (parse_file_content env (detect_broker_tiered f.name content env.patterns)
              content).1).1
          (parse_file_content env (detect_broker_tiered f.name content env.patterns)
            content).1
        rcases parse_trace_shape env (detect_broker_tiered f.name content env.patterns)
          content with hptr | hptr <;>
        rcases step7_trace_shape f.name (extract_period_from_filename f.name)
          (extract_account_from_filename f.name)
          (parse_file_content env (detect_broker_tiered f.name content env.patterns)
            content).1 with hev | hev <;>
        by_cases hnp : (parse_file_content env (detect_broker_tiered f.name content
            env.patterns) content).2.1 = "no_parser_found" <;>
        by_cases hsem : (is_semantic_duplicate db
            (detect_broker_tiered f.name content env.patterns)
            (period_mismatch_step f.name (extract_period_from_filename f.name)
              (extract_account_from_filename f.name)
              (parse_file_content env (detect_broker_tiered f.name content env.patterns)
                content).1).2.1
            (period_mismatch_step f.name (extract_period_from_filename f.name)
              (extract_account_from_filename f.name)
              (parse_file_content env (detect_broker_tiered f.name content env.patterns)
                content).1).1
            (parse_file_content env (detect_broker_tiered f.name content env.patterns)
              content).1).1 = true <;>
        cases hrn : env.renameOk <;>
        by_cases hins : env.insertOk = true <;>
        · simp [process_file_enhanced, hread, hne, is_exact_duplicate, hex,
            hptr, hev, hq1, hq2, hnp, hsem, hrn, hins,
            move_to_duplicate_archive, Action.file?]

/-- Per-run version: every action of a run belongs to one of the
processed files. -/
theorem run_files_locality (env : Env) (fs : List SrcFile) :
    ∀ (db : DB), ∀ a ∈ (run_files env db fs).2,
      ∃ g ∈ fs, a.file? = none ∨ a.file? = some g.name := by
  induction fs with
  | nil => intro db a ha; simp [run_files] at ha
  | cons g t ih =>
    intro db a ha
    simp only [run_files, List.mem_append] at ha
    rcases ha with ha | ha
    · have hall := process_trace_locality env db g
      rw [List.all_eq_true] at hall
      have := hall a ha
      rw [Bool.or_eq_true, beq_iff_eq, beq_iff_eq] at this
      exact ⟨g, by simp, this⟩
    · obtain ⟨g2, hg2, h2⟩ := ih _ a ha
      exact ⟨g2, by simp [hg2], h2⟩

/-- C10: a file is discovered iff it is in the directory, its lowercased
extension is one of `.html`/`.txt`/`.pdf`/`.md`, it is a regular file, and
its size is strictly positive; an unsupported file is never discovered,
and (given distinct names in the directory) no action of the whole run —
no read, move, audit line or insert — concerns it: it stays in the inbox. -/
theorem C10_only_supported_files_processed (dir : List SrcFile) (f : SrcFile)
    (env : Env) (db : DB)
    (hnd : (dir.map (fun g => g.name)).Nodup) (hf : f ∈ dir)
    (hns : is_supported_file f = false) :
    (∀ g, g ∈ scan_directory dir ↔ g ∈ dir ∧ is_supported_file g = true) ∧
    f ∉ scan_directory dir ∧
    (∀ a ∈ (run_import env db dir).2, a.file? ≠ some f.name) := by
  have hmem : ∀ g, g ∈ scan_directory dir ↔ g ∈ dir ∧ is_supported_file g = true := by
    intro g
    simp [scan_directory, List.mem_filter]
  refine ⟨hmem, ?_, ?_⟩
  · intro hin
    rw [hmem f] at hin
    rw [hin.2] at hns
    exact absurd hns (by simp)
  · intro a ha hfa
    obtain ⟨g, hg, h2⟩ := run_files_locality env (scan_directory dir) db a ha
    rcases h2 with h2 | h2
    · rw [hfa] at h2; exact Option.noConfusion h2
    · rw [hfa] at h2
      have hgname : g.name = f.name := by
        have := h2.symm
        simpa using this
      have hgdir := ((hmem g).mp hg).1
      have hgsup := ((hmem g).mp hg).2
      have : g = f := List.inj_on_of_nodup_map hnd hgdir hf hgname
      rw [this] at hgsup
      rw [hgsup] at hns
      exact absurd hns (by simp)

/-- Witness for C10: a zero-byte file and a `.log` file are not
discovered and no run action mentions them; the healthy `.html` file is. -/
theorem C10_only_supported_files_processed_witness :
    (⟨"empty.html", 0, true, true, ""⟩ : SrcFile) ∉
      scan_directory [⟨"ok.html", 4, true, true, "ok"⟩,
        ⟨"empty.html", 0, true, true, ""⟩] ∧
    (∀ a ∈ (run_import ⟨[], fun _ => "HA", fun _ _ => .nonDict, true, true⟩ []
        [⟨"ok.html", 4, true, true, "ok"⟩, ⟨"empty.html", 0, true, true, ""⟩]).2,
      a.file? ≠ some "empty.html") ∧
    (⟨"ok.html", 4, true, true, "ok"⟩ : SrcFile) ∈
      scan_directory [⟨"ok.html", 4, true, true, "ok"⟩,
        ⟨"empty.html", 0, true, true, ""⟩] :=
  ⟨(C10_only_supported_files_processed
      [⟨"ok.html", 4, true, true, "ok"⟩, ⟨"empty.html", 0, true, true, ""⟩]
      ⟨"empty.html", 0, true, true, ""⟩
      ⟨[], fun _ => "HA", fun _ _ => .nonDict, true, true⟩ []
      (by decide) (by decide) (by decide)).2.1,
    (C10_only_supported_files_processed
      [⟨"ok.html", 4, true, true, "ok"⟩, ⟨"empty.html", 0, true, true, ""⟩]
      ⟨"empty.html", 0, true, true, ""⟩
      ⟨[], fun _ => "HA", fun _ _ => .nonDict, true, true⟩ []
      (by decide) (by decide) (by decide)).2.2,
    by decide⟩

end BZ

